import Mathlib

/-!
A shallow embedding of the relations service of the repository
(src/api/src/services/relations.ts), together with proofs about its
access-filtering, validation, mutation and cleanup behaviour.

Stateful service methods are modelled as pure functions over an explicit
database state (`DbState`); the external collaborators (metadata store,
schema inspector, permission oracle, schema hooks, cache) appear either as
explicit data parameters or as fields of the returned effect trace.
-/

namespace Directus

/-- JS truthiness of an optional string: null/undefined and the empty
string are falsy, every other string is truthy. -/
def truthyS : Option String → Bool
  | none => false
  | some s => !(s == "")

/-- One field of a collection, as seen by the schema snapshot
(`SchemaOverview.getField`); `dbType` is the storage type reported by the
database, null for alias fields. -/
structure FieldOverview where
  name : String
  dbType : Option String
deriving DecidableEq

/-- One collection of the schema snapshot: its primary-key field name and
its fields. -/
structure CollectionOverview where
  primary : String
  fields : List FieldOverview
deriving DecidableEq

/-- A physical foreign-key row as reported by the schema inspector
(`schemaInspector.foreignKeys`). -/
structure ForeignKey where
  table : String
  column : String
  foreign_key_table : String
  foreign_key_column : String
  constraint_name : Option String
  on_delete : Option String
deriving DecidableEq

/-- The `schema` part of a relation descriptor. -/
structure RelationSchemaInfo where
  constraint_name : Option String
  on_delete : Option String
deriving DecidableEq

/-- A row of the `directus_relations` metadata store. -/
structure MetaRow where
  id : Nat
  many_collection : Option String
  many_field : Option String
  one_collection : Option String
  one_field : Option String
  one_allowed_collections : Option (List String)
deriving DecidableEq

/-- A partial update for a metadata row, as accepted by the generic
metadata store (`relationsItemService.updateOne(id, patch)`): a present
outer layer means the column is written, the inner value is what is
written. -/
structure MetaPatch where
  many_collection : Option (Option String) := none
  many_field : Option (Option String) := none
  one_collection : Option (Option String) := none
  one_field : Option (Option String) := none
  one_allowed_collections : Option (Option (List String)) := none
deriving DecidableEq

/-- A stitched relation descriptor (`Relation` of the source). -/
structure Relation where
  collection : String
  field : String
  related_collection : Option String
  schema : Option RelationSchemaInfo
  meta : Option MetaRow
deriving DecidableEq

/-- The payload of `createOne` / `updateOne` (`Partial<Relation>`). -/
structure RelationPayload where
  collection : Option String := none
  field : Option String := none
  related_collection : Option String := none
  schema : Option RelationSchemaInfo := none
  meta : Option MetaPatch := none
deriving DecidableEq

/-- One permission record of the accountability object. -/
structure Permission where
  collection : String
  action : String
  fields : Option (List String)
deriving DecidableEq

/-- The accountability context of the caller. -/
structure Accountability where
  admin : Bool
  permissions : Option (List Permission)
deriving DecidableEq

/-- `this.accountability && this.accountability.admin !== true`: the
caller is present and not administrative. -/
def isNonAdmin : Option Accountability → Bool
  | none => false
  | some a => !a.admin

/-- `hasReadAccess` of the service: the accountability holds some explicit
read permission on the `directus_relations` collection. -/
def hasReadAccess : Option Accountability → Bool
  | none => false
  | some a =>
    match a.permissions with
    | none => false
    | some ps =>
      (ps.find? (fun p => p.collection == "directus_relations" && p.action == "read")).isSome

/-- The collections the caller may read:
`permissions?.filter(action === read).map(collection) ?? []`. -/
def allowedCollectionsOf (a : Accountability) : List String :=
  ((a.permissions.getD []).filter (fun p => p.action == "read")).map (fun p => p.collection)

/-- The body of the filter predicate of `filterForbidden`: whether one
relation descriptor survives filtering, given the allowed collections and
the per-collection allowed-fields map of the permission oracle. -/
def relationKept (allowedCols : List String) (af : String → Option (List String))
    (r : Relation) : Bool :=
  let collectionsAllowed :=
    allowedCols.contains r.collection &&
    (!truthyS r.related_collection || allowedCols.contains (r.related_collection.getD "")) &&
    (match r.meta.bind (fun m => m.one_allowed_collections) with
      | some cols => cols.all (fun col => allowedCols.contains col)
      | none => true)
  let fieldsAllowed :=
    (match af r.collection with
      | none => false
      | some fs => fs.contains "*" || fs.contains r.field) &&
    (!(truthyS r.related_collection && truthyS (r.meta.bind (fun m => m.one_field))) ||
      (match af (r.related_collection.getD "") with
        | none => false
        | some fs =>
          fs.contains "*" || fs.contains ((r.meta.bind (fun m => m.one_field)).getD "")))
  collectionsAllowed && fieldsAllowed

/-- `filterForbidden` of the source: pass everything through for an absent
or administrative accountability, otherwise keep exactly the descriptors
the caller may see.  `af` is the output of
`permissionsService.getAllowedFields(read)`. -/
def filterForbidden (acc : Option Accountability) (af : String → Option (List String))
    (relations : List Relation) : List Relation :=
  match acc with
  | none => relations
  | some a =>
    if a.admin then relations
    else relations.filter (relationKept (allowedCollectionsOf a) af)

/-- Whether a metadata row and a physical foreign-key row describe the
same `(collection, field)` pair. -/
def metaMatches (m : MetaRow) (fk : ForeignKey) : Bool :=
  m.many_collection == some fk.table && m.many_field == some fk.column

/-- Modelled from the spec: the merge of one metadata row with the
physical rows, used by `stitchRelations` (the `stitch-relations` utility
of the repository is not under src/).  Schema fields win for the related
collection and the constraint identity; a row with no matching physical
key yields a descriptor with `schema` unset and its related collection
taken from `one_collection`. -/
def stitchOne (schemaRows : List ForeignKey) (m : MetaRow) : Relation :=
  match schemaRows.find? (fun fk => metaMatches m fk) with
  | some fk =>
    { collection := fk.table, field := fk.column,
      related_collection := some fk.foreign_key_table,
      schema := some { constraint_name := fk.constraint_name, on_delete := fk.on_delete },
      meta := some m }
  | none =>
    { collection := m.many_collection.getD "", field := m.many_field.getD "",
      related_collection := m.one_collection, schema := none, meta := some m }

/-- The descriptor of a physical foreign key with no metadata row. -/
def fkRelation (fk : ForeignKey) : Relation :=
  { collection := fk.table, field := fk.column,
    related_collection := some fk.foreign_key_table,
    schema := some { constraint_name := fk.constraint_name, on_delete := fk.on_delete },
    meta := none }

/-- The physical rows not matched by any metadata row. -/
def unmatchedFks (metaRows : List MetaRow) (schemaRows : List ForeignKey) :
    List ForeignKey :=
  schemaRows.filter (fun fk => !(metaRows.any (fun m => metaMatches m fk)))

/-- Modelled from the spec: `stitchRelations` (the `stitch-relations`
utility of the repository is not under src/).  Pure merge of metadata rows
and physical foreign-key rows into relation descriptors, metadata rows
first in their order, then the unmatched physical rows. -/
def stitchRelations (metaRows : List MetaRow) (schemaRows : List ForeignKey) :
    List Relation :=
  metaRows.map (stitchOne schemaRows) ++ (unmatchedFks metaRows schemaRows).map fkRelation

/-- The database-plus-snapshot state a service call operates on. -/
structure DbState where
  collections : List (String × CollectionOverview)
  metaRows : List MetaRow
  nextId : Nat
  foreignKeys : List ForeignKey
deriving DecidableEq

/-- `schema.getCollection` over the snapshot. -/
def getCollection (s : DbState) (c : String) : Option CollectionOverview :=
  (s.collections.find? (fun p => p.1 == c)).map (fun p => p.2)

/-- `schema.hasCollection`. -/
def hasCollection (s : DbState) (c : String) : Bool :=
  (getCollection s c).isSome

/-- `schema.getField`. -/
def getField (s : DbState) (c f : String) : Option FieldOverview :=
  (getCollection s c).bind (fun co => co.fields.find? (fun fl => fl.name == f))

/-- `schema.hasField`. -/
def hasField (s : DbState) (c f : String) : Bool :=
  (getField s c f).isSome

/-- `schema.getPrimaryKeyField`. -/
def getPrimaryKeyField (s : DbState) (c : String) : Option FieldOverview :=
  (getCollection s c).bind (fun co => co.fields.find? (fun fl => fl.name == co.primary))

/-- Lookup of the relation descriptor for `(collection, field)` in a list
of descriptors (`schema.getRelationsForField`). -/
def findRelation (rels : List Relation) (c f : String) : Option Relation :=
  rels.find? (fun r => r.collection == c && r.field == f)

/-- The relation the consistent snapshot derives for `(collection, field)`
from the metadata rows and the physical keys of a state. -/
def getRelationsForField (s : DbState) (c f : String) : Option Relation :=
  findRelation (stitchRelations s.metaRows s.foreignKeys) c f

/-- The validation errors of the service; each constructor stands for one
specific `InvalidPayloadException` message of the source, carrying the
names the source interpolates into the message. -/
inductive PayloadErr
  | collectionRequired
  | fieldRequired
  | collectionMissing (collection : String)
  | fieldMissing (field collection : String)
  | fieldIsPrimaryKey (field collection : String)
  | relatedCollectionMissing (collection : String)
  | alreadyHasRelationship (field collection : String)
  | noRelationship (field collection : String)
deriving DecidableEq

/-- The errors a service call can settle with: `ForbiddenException`,
`InvalidPayloadException`, or a database error propagated out of the
transaction. -/
inductive AppError
  | forbidden
  | invalidPayload (e : PayloadErr)
  | db (msg : String)
deriving DecidableEq

/-- A cache invalidation: the whole relation cache of a collection
(`setHashFull`) or the targeted entry of one field
(`clearRelationsForField`, a repository utility not under src/, modelled
from the spec as a targeted per-field invalidation). -/
inductive CacheOp
  | full (collection : String)
  | field (collection fieldName : String)
deriving DecidableEq

/-- The observable effects of a mutation call besides the state: whether
the transaction step was reached, whether the post-mutation schema hook
ran, and which cache invalidation was issued. -/
structure MutationTrace where
  transactionOpened : Bool := false
  postHookRun : Bool := false
  cacheOp : Option CacheOp := none
deriving DecidableEq

/-- `readAll` of the service.  `sysRows` stands for the fixed
`systemRelationRows` constant (repository data not under src/), `store`
for the content of the metadata store, `fks` for the full physical
foreign-key list of the inspector. -/
def readAll (acc : Option Accountability) (af : String → Option (List String))
    (sysRows store : List MetaRow) (fks : List ForeignKey)
    (collection : Option String) : Except AppError (List Relation) :=
  if isNonAdmin acc && !hasReadAccess acc then Except.error AppError.forbidden
  else
    let queried := if truthyS collection then
        store.filter (fun m => m.many_collection == collection)
      else store
    let metaRows := (queried ++ sysRows).filter (fun m =>
      if truthyS collection then m.many_collection == collection else true)
    let schemaRows := match collection with
      | some c => fks.filter (fun fk => fk.table == c)
      | none => fks
    Except.ok (filterForbidden acc af (stitchRelations metaRows schemaRows))

/-- The field-level permission gate of `readOne` for a present,
non-administrative accountability; `true` means the gate throws
Forbidden. -/
def readOneGateFails (a : Accountability) (collection field : String) : Bool :=
  if !hasReadAccess (some a) then true
  else
    match (a.permissions.getD []).find?
        (fun p => p.action == "read" && p.collection == collection) with
    | none => true
    | some p =>
      match p.fields with
      | none => true
      | some fs => !(fs.contains "*") && !(fs.contains field)

/-- The fetch-and-stitch part of `readOne`: the single matching metadata
row (`limit 1`) stitched with the single matching physical key of the
collection. -/
def readOneStitched (store : List MetaRow) (fks : List ForeignKey)
    (collection field : String) : List Relation :=
  stitchRelations
    ((store.filter (fun m =>
      m.many_collection == some collection && m.many_field == some field)).take 1)
    (match (fks.filter (fun fk => fk.table == collection)).find?
        (fun fk => fk.column == field) with
      | some row => [row]
      | none => [])

/-- The fetch-stitch-filter tail of `readOne`, shared by all callers that
pass the permission gate. -/
def readOneCore (acc : Option Accountability) (af : String → Option (List String))
    (store : List MetaRow) (fks : List ForeignKey) (collection field : String) :
    Except AppError Relation :=
  match filterForbidden acc af (readOneStitched store fks collection field) with
  | [] => Except.error AppError.forbidden
  | r :: _ => Except.ok r

/-- `readOne` of the service. -/
def readOne (acc : Option Accountability) (af : String → Option (List String))
    (store : List MetaRow) (fks : List ForeignKey) (collection field : String) :
    Except AppError Relation :=
  match acc with
  | some a =>
    if !a.admin then
      if readOneGateFails a collection field then Except.error AppError.forbidden
      else readOneCore (some a) af store fks collection field
    else readOneCore (some a) af store fks collection field
  | none => readOneCore none af store fks collection field

/-- Modelled from the spec: `getDefaultIndexName` (a repository utility
not under src/), a deterministic constraint-naming function of
`(kind, collection, field)`. -/
def getDefaultIndexName (kind collection field : String) : String :=
  collection ++ "_" ++ field ++ "_" ++ kind

/-- `alterType` of the service: decides whether the owning field must be
forced to `int unsigned`.  The source dereferences
`schema.getField(relation.collection!, relation.field!)!` and
`schema.getPrimaryKeyField(relation.related_collection!)!`; a failing
lookup is a raised type error inside the transaction, modelled as
`Except.error`.  `Except.ok (some t)` means `table.specificType(field, t)`
is issued, `Except.ok none` means no alteration. -/
def alterType (s : DbState) (collection field related_collection : Option String) :
    Except String (Option String) :=
  match collection.bind (fun c => field.bind (fun f => getField s c f)) with
  | none => Except.error "TypeError"
  | some m2oField =>
    match related_collection.bind (fun rc => getPrimaryKeyField s rc) with
    | none => Except.error "TypeError"
    | some pkField =>
      Except.ok
        (if m2oField.dbType != pkField.dbType && m2oField.dbType == some "int" &&
            pkField.dbType == some "int unsigned"
         then some "int unsigned" else none)

/-- Set the storage type of field `f` of collection `c` in place. -/
def setFieldDbType (s : DbState) (c f t : String) : DbState :=
  { s with collections := s.collections.map (fun p =>
      if p.1 == c then
        (p.1, { p.2 with fields := p.2.fields.map (fun fl =>
          if fl.name == f then { fl with dbType := some t } else fl) })
      else p) }

/-- `table.dropForeign(column, name)`: remove the constraints of the given
name on the given table. -/
def dropForeignKey (s : DbState) (tableName name : String) : DbState :=
  { s with foreignKeys := s.foreignKeys.filter (fun fk =>
      !(fk.table == tableName && fk.constraint_name == some name)) }

/-- `table.foreign(column, name).references(refTable.refColumn)` with an
optional `onDelete`: append the new physical constraint. -/
def addForeignKey (s : DbState) (tableName column refTable refColumn name : String)
    (onDelete : Option String) : DbState :=
  { s with foreignKeys := s.foreignKeys ++
      [{ table := tableName, column := column, foreign_key_table := refTable,
         foreign_key_column := refColumn, constraint_name := some name,
         on_delete := onDelete }] }

/-- Append a metadata row (`relationsItemService.createOne`). -/
def insertMetaRow (s : DbState) (row : MetaRow) : DbState :=
  { s with metaRows := s.metaRows ++ [row], nextId := s.nextId + 1 }

/-- Field-wise application of a metadata patch to a row. -/
def applyPatch (m : MetaRow) (p : MetaPatch) : MetaRow :=
  { id := m.id,
    many_collection := p.many_collection.getD m.many_collection,
    many_field := p.many_field.getD m.many_field,
    one_collection := p.one_collection.getD m.one_collection,
    one_field := p.one_field.getD m.one_field,
    one_allowed_collections := p.one_allowed_collections.getD m.one_allowed_collections }

/-- `relationsItemService.updateOne(id, patch)` on the metadata store. -/
def patchMetaRow (s : DbState) (id : Nat) (p : MetaPatch) : DbState :=
  { s with metaRows := s.metaRows.map (fun m => if m.id = id then applyPatch m p else m) }

/-- A fresh row built from a patch alone (spread of the payload meta). -/
def rowFromPatch (id : Nat) (p : MetaPatch) : MetaRow :=
  { id := id,
    many_collection := p.many_collection.getD none,
    many_field := p.many_field.getD none,
    one_collection := p.one_collection.getD none,
    one_field := p.one_field.getD none,
    one_allowed_collections := p.one_allowed_collections.getD none }

/-- `relation.schema?.on_delete`, with JS truthiness: only a truthy
delete-action is passed to the constraint builder. -/
def onDeleteOf (relation : RelationPayload) : Option String :=
  match relation.schema.bind (fun sch => sch.on_delete) with
  | some d => if d == "" then none else some d
  | none => none

/-- The metadata row written by `createOne`:
spread of the payload meta, then the owning pair and
`one_collection := relation.related_collection || null`. -/
def createMetaRow (relation : RelationPayload) (c f : String) (id : Nat) : MetaRow :=
  { rowFromPatch id (relation.meta.getD {}) with
    many_collection := some c, many_field := some f,
    one_collection := if truthyS relation.related_collection
      then relation.related_collection else none }

/-- `createOne` of the service.  `snapRelations` is the relation list of
the schema snapshot (`schema.getRelationsForCollection`), `preHook` the
result of `helpers.schema.preColumnChange()`, and `txOutcome` whether the
database itself fails the transaction. -/
def createOne (acc : Option Accountability) (snapRelations : List Relation)
    (s : DbState) (preHook : Bool) (txOutcome : Except String Unit)
    (relation : RelationPayload) : Except AppError Unit × DbState × MutationTrace :=
  if isNonAdmin acc then (Except.error AppError.forbidden, s, {})
  else if !truthyS relation.collection then
    (Except.error (AppError.invalidPayload PayloadErr.collectionRequired), s, {})
  else if !truthyS relation.field then
    (Except.error (AppError.invalidPayload PayloadErr.fieldRequired), s, {})
  else
    match getCollection s (relation.collection.getD "") with
    | none =>
      (Except.error (AppError.invalidPayload
        (PayloadErr.collectionMissing (relation.collection.getD ""))), s, {})
    | some co =>
      if !(co.fields.any (fun fl => fl.name == relation.field.getD "")) then
        (Except.error (AppError.invalidPayload
          (PayloadErr.fieldMissing (relation.field.getD "") (relation.collection.getD ""))), s, {})
      else if co.primary == relation.field.getD "" then
        (Except.error (AppError.invalidPayload
          (PayloadErr.fieldIsPrimaryKey (relation.field.getD "") (relation.collection.getD ""))),
          s, {})
      else if truthyS relation.related_collection &&
          !(hasCollection s (relation.related_collection.getD "")) then
        (Except.error (AppError.invalidPayload
          (PayloadErr.relatedCollectionMissing (relation.related_collection.getD ""))), s, {})
      else if ((snapRelations.filter (fun r => r.collection == relation.collection.getD "")).find?
          (fun r => r.field == relation.field.getD "")).isSome then
        (Except.error (AppError.invalidPayload
          (PayloadErr.alreadyHasRelationship (relation.field.getD "") (relation.collection.getD ""))),
          s, {})
      else
        let bodyResult : Except String DbState :=
          match txOutcome with
          | Except.error e => Except.error e
          | Except.ok _ =>
            match
              (if truthyS relation.related_collection then
                match alterType s relation.collection relation.field relation.related_collection with
                | Except.error e => Except.error e
                | Except.ok dec =>
                  let s1 := match dec with
                    | some t => setFieldDbType s (relation.collection.getD "")
                        (relation.field.getD "") t
                    | none => s
                  match getCollection s (relation.related_collection.getD "") with
                  | none => Except.error "TypeError"
                  | some rco =>
                    Except.ok (addForeignKey s1 (relation.collection.getD "")
                      (relation.field.getD "") (relation.related_collection.getD "") rco.primary
                      (getDefaultIndexName "foreign" (relation.collection.getD "")
                        (relation.field.getD ""))
                      (onDeleteOf relation))
              else Except.ok s)
            with
            | Except.error e => Except.error e
            | Except.ok s1 =>
              Except.ok (insertMetaRow s1
                (createMetaRow relation (relation.collection.getD "")
                  (relation.field.getD "") s1.nextId))
        match bodyResult with
        | Except.ok s2 =>
          (Except.ok (), s2,
            { transactionOpened := true, postHookRun := preHook,
              cacheOp := some (CacheOp.full (relation.collection.getD "")) })
        | Except.error e =>
          (Except.error (AppError.db e), s,
            { transactionOpened := true, postHookRun := preHook,
              cacheOp := some (CacheOp.full (relation.collection.getD "")) })

/-- The constraint name `updateOne` drops and recreates: the recorded name
of the existing constraint if truthy, else the deterministic default. -/
def updateConstraintName (existing : Relation) (defaultName : String) : String :=
  match existing.schema with
  | some sch =>
    match sch.constraint_name with
    | some n => if n == "" then defaultName else n
    | none => defaultName
  | none => defaultName

/-- The `alterTable` step of `updateOne`: drop the recorded constraint if
the existing relation has a physical one, reapply the type fix, recreate
the constraint against the primary key of the existing related
collection. -/
def updateFkStep (s : DbState) (existing : Relation) (collection field : String)
    (relation : RelationPayload) : Except String DbState :=
  if truthyS existing.related_collection then
    let constraintName := updateConstraintName existing
      (getDefaultIndexName "foreign" collection field)
    let s0 := match existing.schema with
      | some _ => dropForeignKey s collection constraintName
      | none => s
    match alterType s relation.collection relation.field relation.related_collection with
    | Except.error e => Except.error e
    | Except.ok dec =>
      let s1 := match dec with
        | some t => setFieldDbType s0 collection (relation.field.getD "") t
        | none => s0
      match getCollection s (existing.related_collection.getD "") with
      | none => Except.error "TypeError"
      | some rco =>
        Except.ok (addForeignKey s1 collection field
          (existing.related_collection.getD "") rco.primary constraintName
          (onDeleteOf relation))
  else Except.ok s

/-- The metadata step of `updateOne`: patch the existing row, or create
one for a previously schema-only relation, with the owning pair taken
from the payload and `one_collection` from the existing relation. -/
def updateMetaStep (s1 : DbState) (existing : Relation) (relation : RelationPayload) :
    DbState :=
  match relation.meta with
  | none => s1
  | some p =>
    match existing.meta with
    | some m => patchMetaRow s1 m.id p
    | none =>
      insertMetaRow s1
        { rowFromPatch s1.nextId p with
          many_collection := relation.collection,
          many_field := relation.field,
          one_collection := if truthyS existing.related_collection
            then existing.related_collection else none }

/-- `updateOne` of the service. -/
def updateOne (acc : Option Accountability) (snapRelations : List Relation)
    (s : DbState) (preHook : Bool) (txOutcome : Except String Unit)
    (collection field : String) (relation : RelationPayload) :
    Except AppError Unit × DbState × MutationTrace :=
  if isNonAdmin acc then (Except.error AppError.forbidden, s, {})
  else if !hasCollection s collection then
    (Except.error (AppError.invalidPayload (PayloadErr.collectionMissing collection)), s, {})
  else if !hasField s collection field then
    (Except.error (AppError.invalidPayload (PayloadErr.fieldMissing field collection)), s, {})
  else
    match findRelation snapRelations collection field with
    | none =>
      (Except.error (AppError.invalidPayload (PayloadErr.noRelationship field collection)), s, {})
    | some existing =>
      let bodyResult : Except String DbState :=
        match txOutcome with
        | Except.error e => Except.error e
        | Except.ok _ =>
          match updateFkStep s existing collection field relation with
          | Except.error e => Except.error e
          | Except.ok s1 => Except.ok (updateMetaStep s1 existing relation)
      match bodyResult with
      | Except.ok s2 =>
        (Except.ok (), s2,
          { transactionOpened := true, postHookRun := preHook,
            cacheOp := some (CacheOp.field collection field) })
      | Except.error e =>
        (Except.error (AppError.db e), s,
          { transactionOpened := true, postHookRun := preHook,
            cacheOp := some (CacheOp.field collection field) })

/-- `deleteOne` of the service.  Inside the transaction the live physical
constraint names are re-fetched from the state; the snapshot relation list
`snapRelations` may have drifted from them. -/
def deleteOne (acc : Option Accountability) (snapRelations : List Relation)
    (s : DbState) (preHook : Bool) (txOutcome : Except String Unit)
    (collection field : String) : Except AppError Unit × DbState × MutationTrace :=
  if isNonAdmin acc then (Except.error AppError.forbidden, s, {})
  else if !hasCollection s collection then
    (Except.error (AppError.invalidPayload (PayloadErr.collectionMissing collection)), s, {})
  else if !hasField s collection field then
    (Except.error (AppError.invalidPayload (PayloadErr.fieldMissing field collection)), s, {})
  else
    match findRelation snapRelations collection field with
    | none =>
      (Except.error (AppError.invalidPayload (PayloadErr.noRelationship field collection)), s, {})
    | some existing =>
      let bodyResult : Except String DbState :=
        match txOutcome with
        | Except.error e => Except.error e
        | Except.ok _ =>
          let constraintNames := s.foreignKeys.map (fun fk => fk.constraint_name)
          let s1 := match existing.schema.bind (fun sch => sch.constraint_name) with
            | some n =>
              if !(n == "") && constraintNames.contains (some n) then
                dropForeignKey s existing.collection n
              else s
            | none => s
          Except.ok (if existing.meta.isSome then
              { s1 with metaRows := s1.metaRows.filter (fun m =>
                  !(m.many_collection == some collection && m.many_field == some field)) }
            else s1)
      match bodyResult with
      | Except.ok s2 =>
        (Except.ok (), s2,
          { transactionOpened := true, postHookRun := preHook,
            cacheOp := some (CacheOp.field collection field) })
      | Except.error e =>
        (Except.error (AppError.db e), s,
          { transactionOpened := true, postHookRun := preHook,
            cacheOp := some (CacheOp.field collection field) })

/-! Shared helper lemmas. -/

theorem beqSymm {α : Type} [BEq α] [LawfulBEq α] (a b : α) : (a == b) = (b == a) := by
  by_cases h : a = b
  · subst h; rfl
  · rw [beq_eq_false_iff_ne.mpr h, beq_eq_false_iff_ne.mpr (Ne.symm h)]

theorem find?_map_pred_inv {α : Type} (g : α → α) (p : α → Bool) (l : List α)
    (h : ∀ x, p (g x) = p x) : (l.map g).find? p = (l.find? p).map g := by
  rw [List.find?_map]
  have hpg : p ∘ g = p := funext h
  rw [hpg]

theorem find?_filter_congr {α : Type} (l : List α) (p q1 q2 : α → Bool)
    (h : ∀ x ∈ l, p x = true → q1 x = q2 x) :
    (l.filter q1).find? p = (l.filter q2).find? p := by
  induction l with
  | nil => rfl
  | cons a l ih =>
    have ih' := ih (fun x hx hp => h x (List.mem_cons_of_mem a hx) hp)
    by_cases hp : p a = true
    · have hq : q1 a = q2 a := h a (List.mem_cons_self a l) hp
      cases h1 : q1 a
      · simp [List.filter_cons, h1, hq.symm.trans h1, ih']
      · simp [List.filter_cons, h1, hq.symm.trans h1, List.find?_cons, hp]
    · have hp' : p a = false := by revert hp; cases p a <;> simp
      cases h1 : q1 a <;> cases h2 : q2 a <;>
        simp [List.filter_cons, h1, h2, hp', ih', List.find?_cons]

/-! C8 and C9: pass-through and idempotence of the access filter. -/

/-- C8: for an absent accountability, and for an administrative one,
`filterForbidden` returns the input list unchanged: same descriptors,
same order, no filtering applied. -/
theorem relations_C8 (af : String → Option (List String)) (rels : List Relation) :
    filterForbidden none af rels = rels ∧
    ∀ a : Accountability, a.admin = true → filterForbidden (some a) af rels = rels := by
  refine ⟨rfl, fun a h => ?_⟩
  simp [filterForbidden, h]

theorem relations_C8_witness :
    filterForbidden (some { admin := true, permissions := none }) (fun _ => none)
      [{ collection := "a", field := "b", related_collection := none,
         schema := none, meta := none }] =
      [{ collection := "a", field := "b", related_collection := none,
         schema := none, meta := none }] :=
  (relations_C8 (fun _ => none)
    [{ collection := "a", field := "b", related_collection := none,
       schema := none, meta := none }]).2 { admin := true, permissions := none } rfl

/-- C9: filtering is idempotent: applying `filterForbidden` to a list it
already produced, under the same accountability and the same permission
data, returns that list unchanged. -/
theorem relations_C9 (acc : Option Accountability) (af : String → Option (List String))
    (rels : List Relation) :
    filterForbidden acc af (filterForbidden acc af rels) = filterForbidden acc af rels := by
  match acc with
  | none => rfl
  | some a =>
    by_cases h : a.admin
    · simp [filterForbidden, h]
    · simp [filterForbidden, h, List.filter_filter]

/-! C7: the type-compatibility fix. -/

theorem getField_setFieldDbType (s : DbState) (c f t : String) :
    getField (setFieldDbType s c f t) c f =
      (getField s c f).map (fun fl => { fl with dbType := some t }) := by
  unfold getField getCollection setFieldDbType
  rw [find?_map_pred_inv _ _ _ (fun p => by by_cases h : p.1 == c <;> simp [h])]
  cases hfind : s.collections.find? (fun p => p.1 == c) with
  | none => rfl
  | some pr =>
    have hc : (pr.1 == c) = true := by
      have := List.find?_some hfind
      exact this
    have hc' : pr.1 = c := by simpa using hc
    simp [hc']
    have hpg : ((fun fl => fl.name == f) ∘ fun fl =>
        if fl.name = f then { name := fl.name, dbType := some t } else fl) =
        (fun fl : FieldOverview => fl.name == f) := by
      funext fl
      by_cases h : fl.name = f <;> simp [h]
    rw [hpg]
    cases hf : pr.2.fields.find? (fun fl => fl.name == f) with
    | none => rfl
    | some fl =>
      have hfl' : fl.name = f := by simpa using List.find?_some hf
      simp [hfl']

theorem alterType_eq (s : DbState) (c f rc : String) (m2o pk : FieldOverview)
    (hm : getField s c f = some m2o) (hp : getPrimaryKeyField s rc = some pk) :
    alterType s (some c) (some f) (some rc) =
      Except.ok (if m2o.dbType != pk.dbType && m2o.dbType == some "int" &&
        pk.dbType == some "int unsigned" then some "int unsigned" else none) := by
  unfold alterType
  simp [hm, hp]

/-- C7: the fix alters the owning field, in place, to exactly
`int unsigned`, precisely when the owning field's database type is `int`
and the related primary key's database type is `int unsigned`; every
other pairing is left unchanged. -/
theorem relations_C7 (s : DbState) (c f rc : String) (m2o pk : FieldOverview)
    (hm : getField s c f = some m2o) (hp : getPrimaryKeyField s rc = some pk) :
    (alterType s (some c) (some f) (some rc) = Except.ok (some "int unsigned") ↔
      m2o.dbType = some "int" ∧ pk.dbType = some "int unsigned") ∧
    (¬(m2o.dbType = some "int" ∧ pk.dbType = some "int unsigned") →
      alterType s (some c) (some f) (some rc) = Except.ok none) ∧
    (getField (setFieldDbType s c f "int unsigned") c f =
      some { m2o with dbType := some "int unsigned" }) := by
  rw [alterType_eq s c f rc m2o pk hm hp]
  refine ⟨?_, ?_, ?_⟩
  · by_cases h1 : m2o.dbType = some "int" <;> by_cases h2 : pk.dbType = some "int unsigned"
    · rw [h1, h2]
      simp
    · simp [h2, beq_eq_false_iff_ne.mpr h2]
    · simp [h1, beq_eq_false_iff_ne.mpr h1]
    · simp [h1, beq_eq_false_iff_ne.mpr h1]
  · intro hno
    by_cases h1 : m2o.dbType = some "int" <;> by_cases h2 : pk.dbType = some "int unsigned"
    · exact absurd ⟨h1, h2⟩ hno
    · simp [beq_eq_false_iff_ne.mpr h2]
    · simp [beq_eq_false_iff_ne.mpr h1]
    · simp [beq_eq_false_iff_ne.mpr h1]
  · rw [getField_setFieldDbType, hm]
    rfl

/-- A two-column test collection: `id` is the unsigned primary key, `f` a
signed integer column. -/
def sampleIntCollection : CollectionOverview :=
  { primary := "id",
    fields := [{ name := "id", dbType := some "int unsigned" },
               { name := "f", dbType := some "int" }] }

/-- A one-collection test state built from `sampleIntCollection`. -/
def sampleIntState : DbState :=
  { collections := [("a", sampleIntCollection)],
    metaRows := [], nextId := 0, foreignKeys := [] }

theorem relations_C7_witness :
    alterType sampleIntState (some "a") (some "f") (some "a") =
      Except.ok (some "int unsigned") :=
  (relations_C7 sampleIntState "a" "f" "a" { name := "f", dbType := some "int" }
    { name := "id", dbType := some "int unsigned" } (by decide) (by decide)).1.mpr
    ⟨rfl, rfl⟩

/-! C1: full characterization of which relations survive the filter. -/

theorem condB_iff (cols : List String) (ro : Option String) :
    ((!truthyS ro || cols.contains (ro.getD "")) = true) ↔
      (∀ rc, ro = some rc → rc ≠ "" → rc ∈ cols) := by
  cases ro with
  | none => simp [truthyS]
  | some rc =>
    by_cases h : rc = ""
    · subst h; simp [truthyS]
    · simp [truthyS, h]

theorem condC_iff (cols : List String) (mo : Option MetaRow) :
    ((match mo.bind (fun m => m.one_allowed_collections) with
      | some colsA => colsA.all (fun col => cols.contains col)
      | none => true) = true) ↔
      (∀ m colsA, mo = some m → m.one_allowed_collections = some colsA →
        ∀ col ∈ colsA, col ∈ cols) := by
  cases mo with
  | none => simp
  | some m =>
    cases hoc : m.one_allowed_collections with
    | none =>
      simp only [Option.some_bind, hoc, true_iff]
      intro m1 colsA hm hoc1
      cases hm
      rw [hoc] at hoc1
      exact nomatch hoc1
    | some colsA =>
      simp only [Option.some_bind, hoc, List.all_eq_true]
      constructor
      · intro h m1 colsA' hm hoc'
        cases hm
        rw [hoc] at hoc'
        cases hoc'
        intro col hcol
        simpa using h col hcol
      · intro h col hcol
        simpa using h m colsA rfl hoc col hcol

theorem condD_iff (af : String → Option (List String)) (c fieldName : String) :
    ((match af c with
      | none => false
      | some fs => fs.contains "*" || fs.contains fieldName) = true) ↔
      (∃ fs, af c = some fs ∧ ("*" ∈ fs ∨ fieldName ∈ fs)) := by
  cases haf : af c <;> simp [haf]

theorem condE_iff (af : String → Option (List String)) (ro : Option String)
    (mo : Option MetaRow) :
    ((!(truthyS ro && truthyS (mo.bind (fun m => m.one_field))) ||
      (match af (ro.getD "") with
        | none => false
        | some fs =>
          fs.contains "*" || fs.contains ((mo.bind (fun m => m.one_field)).getD ""))) = true) ↔
      (∀ rc m ofd, ro = some rc → rc ≠ "" → mo = some m → m.one_field = some ofd →
        ofd ≠ "" → ∃ fs, af rc = some fs ∧ ("*" ∈ fs ∨ ofd ∈ fs)) := by
  cases ro with
  | none => simp [truthyS]
  | some rc =>
    by_cases hrc : rc = ""
    · subst hrc
      simp only [truthyS, beq_self_eq_true, Bool.not_true, Bool.false_and, Bool.not_false,
        Bool.true_or, true_iff]
      intro rc' m ofd h1 h2
      cases h1
      exact absurd rfl h2
    · cases mo with
      | none =>
        simp only [Option.none_bind, truthyS, Bool.and_false, Bool.not_false, Bool.true_or,
          true_iff]
        intro rc' m ofd _ _ hmo
        exact nomatch hmo
      | some m =>
        cases hof : m.one_field with
        | none =>
          simp only [Option.some_bind, hof, truthyS, Bool.and_false, Bool.not_false,
            Bool.true_or, true_iff]
          intro rc' m1 ofd _ _ hm hof1
          cases hm
          rw [hof] at hof1
          exact nomatch hof1
        | some ofd =>
          by_cases hofd : ofd = ""
          · subst hofd
            simp only [Option.some_bind, hof, truthyS, beq_self_eq_true, Bool.not_true,
              Bool.and_false, Bool.not_false, Bool.true_or, true_iff]
            intro rc' m1 ofd' _ _ hm hof1 hofd'
            cases hm
            rw [hof] at hof1
            cases hof1
            exact absurd rfl hofd'
          · cases haf : af rc with
            | none =>
              simp only [Option.some_bind, hof, truthyS, Option.getD_some, haf]
              constructor
              · intro h
                have h1 : ((rc == "") : Bool) = false := beq_eq_false_iff_ne.mpr hrc
                have h2 : ((ofd == "") : Bool) = false := beq_eq_false_iff_ne.mpr hofd
                rw [h1, h2] at h
                exact nomatch h
              · intro h
                obtain ⟨fs, hfs, _⟩ := h rc m ofd rfl hrc rfl hof hofd
                rw [haf] at hfs
                exact nomatch hfs
            | some fs =>
              simp only [Option.some_bind, hof, truthyS, Option.getD_some, haf]
              have h1 : ((rc == "") : Bool) = false := beq_eq_false_iff_ne.mpr hrc
              have h2 : ((ofd == "") : Bool) = false := beq_eq_false_iff_ne.mpr hofd
              rw [h1, h2]
              simp only [Bool.not_false, Bool.and_self, Bool.not_true, Bool.false_or,
                Bool.or_eq_true]
              constructor
              · intro h rc' m1 ofd' hrc' _ hm hof1 _
                cases hrc'
                cases hm
                rw [hof] at hof1
                cases hof1
                exact ⟨fs, haf, by simpa using h⟩
              · intro h
                obtain ⟨fs', hfs', hmem⟩ := h rc m ofd rfl hrc rfl hof hofd
                rw [haf] at hfs'
                cases hfs'
                simpa using hmem

theorem relationKept_iff (cols : List String) (af : String → Option (List String))
    (r : Relation) :
    relationKept cols af r = true ↔
      (r.collection ∈ cols ∧
       (∀ rc, r.related_collection = some rc → rc ≠ "" → rc ∈ cols) ∧
       (∀ m colsA, r.meta = some m → m.one_allowed_collections = some colsA →
         ∀ col ∈ colsA, col ∈ cols) ∧
       (∃ fs, af r.collection = some fs ∧ ("*" ∈ fs ∨ r.field ∈ fs)) ∧
       (∀ rc m ofd, r.related_collection = some rc → rc ≠ "" → r.meta = some m →
         m.one_field = some ofd → ofd ≠ "" →
         ∃ fs, af rc = some fs ∧ ("*" ∈ fs ∨ ofd ∈ fs))) := by
  unfold relationKept
  simp only [Bool.and_eq_true]
  rw [condB_iff cols r.related_collection, condC_iff cols r.meta,
    condD_iff af r.collection r.field, condE_iff af r.related_collection r.meta]
  have hA : (cols.contains r.collection = true) ↔ r.collection ∈ cols := by simp
  rw [hA]
  constructor
  · rintro ⟨⟨⟨hA1, hB⟩, hC⟩, hD, hE⟩
    exact ⟨hA1, hB, hC, hD, hE⟩
  · rintro ⟨hA1, hB, hC, hD, hE⟩
    exact ⟨⟨⟨hA1, hB⟩, hC⟩, hD, hE⟩

/-- C1: for a present non-administrative accountability, a relation is in
the filtered output exactly when it is in the input and (a) its owning
collection is read-allowed, (b) its related collection, when present, is
allowed, (c) every collection of `one_allowed_collections`, when present,
is allowed, (d) its own field is allowed on the owning collection by
wildcard or explicitly, and (e) a declared reverse field is allowed on the
related collection; moreover the output is a sublist of the input, so no
partial or redacted descriptor is ever returned. -/
theorem relations_C1 (a : Accountability) (af : String → Option (List String))
    (rels : List Relation) (r : Relation) (hadm : a.admin = false) :
    (r ∈ filterForbidden (some a) af rels ↔
      r ∈ rels ∧
      (r.collection ∈ allowedCollectionsOf a ∧
       (∀ rc, r.related_collection = some rc → rc ≠ "" → rc ∈ allowedCollectionsOf a) ∧
       (∀ m colsA, r.meta = some m → m.one_allowed_collections = some colsA →
         ∀ col ∈ colsA, col ∈ allowedCollectionsOf a) ∧
       (∃ fs, af r.collection = some fs ∧ ("*" ∈ fs ∨ r.field ∈ fs)) ∧
       (∀ rc m ofd, r.related_collection = some rc → rc ≠ "" → r.meta = some m →
         m.one_field = some ofd → ofd ≠ "" →
         ∃ fs, af rc = some fs ∧ ("*" ∈ fs ∨ ofd ∈ fs)))) ∧
    (filterForbidden (some a) af rels).Sublist rels := by
  have hff : filterForbidden (some a) af rels =
      rels.filter (relationKept (allowedCollectionsOf a) af) := by
    simp [filterForbidden, hadm]
  constructor
  · rw [hff, List.mem_filter, relationKept_iff]
  · rw [hff]
    exact List.filter_sublist _

/-- A non-administrative caller that may read `articles` (all fields) and
the relation metadata collection. -/
def readArticlesAcc : Accountability :=
  { admin := false,
    permissions := some
      [{ collection := "articles", action := "read", fields := some ["*"] },
       { collection := "directus_relations", action := "read", fields := some ["*"] }] }

/-- An allowed-fields map granting every field of `articles` only. -/
def articlesOnlyAf : String → Option (List String) :=
  fun c => if c == "articles" then some ["*"] else none

/-- An alias relation on `articles.author_id` with no related collection. -/
def articleAliasRelation : Relation :=
  { collection := "articles", field := "author_id", related_collection := none,
    schema := none, meta := none }

theorem relations_C1_witness :
    readArticlesAcc.admin = false ∧
    articleAliasRelation ∈
      filterForbidden (some readArticlesAcc) articlesOnlyAf [articleAliasRelation] := by
  refine ⟨rfl, ?_⟩
  refine ((relations_C1 readArticlesAcc articlesOnlyAf [articleAliasRelation]
    articleAliasRelation rfl).1).mpr ?_
  refine ⟨List.mem_singleton.mpr rfl, by decide, ?_, ?_, ?_, ?_⟩
  · intro rc h
    exact nomatch h
  · intro m colsA h
    exact nomatch h
  · exact ⟨["*"], by decide, Or.inl (by decide)⟩
  · intro rc m ofd h
    exact nomatch h

/-! C3: the fail-closed permission behaviour of `readOne`. -/

/-- C3: for a present non-administrative accountability, `readOne` raises
Forbidden when base read access to the relation metadata is missing, when
no explicit read permission record exists for the collection, when the
record carries no field list, or when the field is neither listed nor
covered by a wildcard; whenever stitching plus filtering yields zero
descriptors the result is Forbidden as well, and every error `readOne`
can produce is Forbidden, so non-existence is never distinguishable from
lack of access. -/
theorem relations_C3 (a : Accountability) (af : String → Option (List String))
    (store : List MetaRow) (fks : List ForeignKey) (collection field : String)
    (hadm : a.admin = false) :
    (hasReadAccess (some a) = false →
      readOne (some a) af store fks collection field = Except.error AppError.forbidden) ∧
    ((a.permissions.getD []).find?
        (fun p => p.action == "read" && p.collection == collection) = none →
      readOne (some a) af store fks collection field = Except.error AppError.forbidden) ∧
    (∀ p, (a.permissions.getD []).find?
        (fun p => p.action == "read" && p.collection == collection) = some p →
      p.fields = none →
      readOne (some a) af store fks collection field = Except.error AppError.forbidden) ∧
    (∀ p fs, (a.permissions.getD []).find?
        (fun p => p.action == "read" && p.collection == collection) = some p →
      p.fields = some fs → fs.contains "*" = false → fs.contains field = false →
      readOne (some a) af store fks collection field = Except.error AppError.forbidden) ∧
    (filterForbidden (some a) af (readOneStitched store fks collection field) = [] →
      readOne (some a) af store fks collection field = Except.error AppError.forbidden) ∧
    (∀ e, readOne (some a) af store fks collection field = Except.error e →
      e = AppError.forbidden) := by
  have hna : (!a.admin) = true := by rw [hadm]; rfl
  refine ⟨?_, ?_, ?_, ?_, ?_, ?_⟩
  · intro h
    have hgate : readOneGateFails a collection field = true := by
      unfold readOneGateFails
      rw [h]
      rfl
    simp [readOne, hna, hgate]
  · intro h
    have hgate : readOneGateFails a collection field = true := by
      unfold readOneGateFails
      rw [h]
      split <;> rfl
    simp [readOne, hna, hgate]
  · intro p hp hfields
    have hgate : readOneGateFails a collection field = true := by
      unfold readOneGateFails
      rw [hp]
      split
      · rfl
      · simp [hfields]
    simp [readOne, hna, hgate]
  · intro p fs hp hfields hstar hfield
    have hgate : readOneGateFails a collection field = true := by
      unfold readOneGateFails
      rw [hp]
      split
      · rfl
      · have h1 : "*" ∉ fs := by simpa using hstar
        have h2 : field ∉ fs := by simpa using hfield
        simp [hfields, h1, h2]
    simp [readOne, hna, hgate]
  · intro h
    by_cases hgate : readOneGateFails a collection field
    · simp [readOne, hna, hgate]
    · simp only [readOne, hna, if_true, hgate, if_false, Bool.not_eq_true] at *
      unfold readOneCore
      rw [h]
      simp [hgate]
  · intro e h
    by_cases hgate : readOneGateFails a collection field
    · simp [readOne, hna, hgate] at h
      exact h.symm
    · simp only [readOne, hna, if_true, hgate, if_false] at h
      unfold readOneCore at h
      cases hcase : filterForbidden (some a) af (readOneStitched store fks collection field) with
      | nil =>
        simp only [hcase] at h
        injection h with h1
        exact h1.symm
      | cons r t =>
        simp only [hcase] at h
        exact nomatch h

theorem relations_C3_witness :
    readOne (some { admin := false, permissions := none }) articlesOnlyAf [] []
      "articles" "author_id" = Except.error AppError.forbidden :=
  (relations_C3 { admin := false, permissions := none } articlesOnlyAf [] []
    "articles" "author_id" rfl).1 rfl

/-! C5: drift-robust behaviour of `deleteOne`. -/

/-- C5: for an existing relation, `deleteOne` succeeds, drops the physical
constraint exactly when its recorded name is truthy and present in the
live constraint-name list re-fetched inside the transaction, and deletes
the metadata rows of the pair exactly when a metadata record exists; in
particular a relation whose constraint was already removed out-of-band is
deleted without raising and its metadata still goes away. -/
theorem relations_C5 (acc : Option Accountability) (snapRelations : List Relation)
    (s : DbState) (preHook : Bool) (collection field : String) (r : Relation)
    (hadm : isNonAdmin acc = false)
    (hc : hasCollection s collection = true)
    (hf : hasField s collection field = true)
    (hr : findRelation snapRelations collection field = some r) :
    (deleteOne acc snapRelations s preHook (Except.ok ()) collection field).1 =
      Except.ok () ∧
    (r.schema.bind (fun sch => sch.constraint_name) = none →
      (deleteOne acc snapRelations s preHook (Except.ok ()) collection field).2.1.foreignKeys =
        s.foreignKeys) ∧
    (∀ n, r.schema.bind (fun sch => sch.constraint_name) = some n →
      (n = "" ∨ (s.foreignKeys.map (fun fk => fk.constraint_name)).contains (some n) = false) →
      (deleteOne acc snapRelations s preHook (Except.ok ()) collection field).2.1.foreignKeys =
        s.foreignKeys) ∧
    (∀ n, r.schema.bind (fun sch => sch.constraint_name) = some n → n ≠ "" →
      (s.foreignKeys.map (fun fk => fk.constraint_name)).contains (some n) = true →
      (deleteOne acc snapRelations s preHook (Except.ok ()) collection field).2.1.foreignKeys =
        (dropForeignKey s r.collection n).foreignKeys) ∧
    (r.meta.isSome = true →
      (deleteOne acc snapRelations s preHook (Except.ok ()) collection field).2.1.metaRows =
        s.metaRows.filter (fun m =>
          !(m.many_collection == some collection && m.many_field == some field))) ∧
    (r.meta = none →
      (deleteOne acc snapRelations s preHook (Except.ok ()) collection field).2.1.metaRows =
        s.metaRows) := by
  refine ⟨?_, ?_, ?_, ?_, ?_, ?_⟩
  · simp [deleteOne, hadm, hc, hf, hr]
  · intro hn
    simp only [deleteOne, hadm, hc, hf, hr]
    simp only [hn]
    cases hmeta : r.meta.isSome <;> simp [hmeta]
  · intro n hn hdisj
    simp only [deleteOne, hadm, hc, hf, hr]
    simp only [hn]
    have hcond : (!(n == "") &&
        (s.foreignKeys.map (fun fk => fk.constraint_name)).contains (some n)) = false := by
      cases hdisj with
      | inl h => subst h; rfl
      | inr h => rw [h, Bool.and_false]
    simp only [hcond]
    cases hmeta : r.meta.isSome <;> simp [hmeta]
  · intro n hn hne hcont
    simp only [deleteOne, hadm, hc, hf, hr]
    simp only [hn]
    have hcond : (!(n == "") &&
        (s.foreignKeys.map (fun fk => fk.constraint_name)).contains (some n)) = true := by
      rw [beq_eq_false_iff_ne.mpr hne, hcont]
      rfl
    simp only [hcond]
    cases hmeta : r.meta.isSome <;> simp [hmeta]
  · intro hm
    simp [deleteOne, hadm, hc, hf, hr, hm]
    split <;> first | (split <;> rfl) | rfl
  · intro hm
    simp [deleteOne, hadm, hc, hf, hr, hm]
    split <;> first | (split <;> rfl) | rfl

/-- A relation whose recorded constraint has drifted away: the snapshot
still records `a_f_foreign`, the live state has no physical keys left. -/
def driftedRelation : Relation :=
  { collection := "a", field := "f", related_collection := some "b",
    schema := some { constraint_name := some "a_f_foreign", on_delete := none },
    meta := some { id := 0, many_collection := some "a", many_field := some "f",
                   one_collection := some "b", one_field := none,
                   one_allowed_collections := none } }

/-- A live state for the drift scenario: collection `a` with field `f`,
the metadata row still present, but no physical foreign key. -/
def driftedState : DbState :=
  { collections := [("a", sampleIntCollection)],
    metaRows := [{ id := 0, many_collection := some "a", many_field := some "f",
                   one_collection := some "b", one_field := none,
                   one_allowed_collections := none }],
    nextId := 1, foreignKeys := [] }

theorem relations_C5_witness :
    (deleteOne none [driftedRelation] driftedState false (Except.ok ()) "a" "f").1 =
      Except.ok () ∧
    (deleteOne none [driftedRelation] driftedState false (Except.ok ()) "a" "f").2.1.metaRows
      = [] := by
  have h := relations_C5 none [driftedRelation] driftedState false "a" "f"
    driftedRelation rfl (by decide) (by decide) (by decide)
  refine ⟨h.1, ?_⟩
  have h5 := h.2.2.2.2.1 (by decide)
  rw [h5]
  decide

/-! C6: guaranteed cleanup around the transaction. -/

/-- C6: whenever `createOne`, `updateOne` or `deleteOne` reaches the
transaction step, the post-mutation hook runs exactly when the pre-hook
asked for it and the cache invalidation for the affected collection
(create) or the exact pair (update, delete) is issued, both when the
transaction commits and when it raises; a transaction error still
propagates to the caller as a database error. -/
theorem relations_C6 :
    (∀ (acc : Option Accountability) (snap : List Relation) (s : DbState)
        (preHook : Bool) (txOutcome : Except String Unit) (relation : RelationPayload),
      (createOne acc snap s preHook txOutcome relation).2.2.transactionOpened = true →
      (createOne acc snap s preHook txOutcome relation).2.2.postHookRun = preHook ∧
      (createOne acc snap s preHook txOutcome relation).2.2.cacheOp =
        some (CacheOp.full (relation.collection.getD "")) ∧
      (∀ e, txOutcome = Except.error e →
        (createOne acc snap s preHook txOutcome relation).1 =
          Except.error (AppError.db e))) ∧
    (∀ (acc : Option Accountability) (snap : List Relation) (s : DbState)
        (preHook : Bool) (txOutcome : Except String Unit) (collection field : String)
        (relation : RelationPayload),
      (updateOne acc snap s preHook txOutcome collection field relation).2.2.transactionOpened
        = true →
      (updateOne acc snap s preHook txOutcome collection field relation).2.2.postHookRun
        = preHook ∧
      (updateOne acc snap s preHook txOutcome collection field relation).2.2.cacheOp =
        some (CacheOp.field collection field) ∧
      (∀ e, txOutcome = Except.error e →
        (updateOne acc snap s preHook txOutcome collection field relation).1 =
          Except.error (AppError.db e))) ∧
    (∀ (acc : Option Accountability) (snap : List Relation) (s : DbState)
        (preHook : Bool) (txOutcome : Except String Unit) (collection field : String),
      (deleteOne acc snap s preHook txOutcome collection field).2.2.transactionOpened = true →
      (deleteOne acc snap s preHook txOutcome collection field).2.2.postHookRun = preHook ∧
      (deleteOne acc snap s preHook txOutcome collection field).2.2.cacheOp =
        some (CacheOp.field collection field) ∧
      (∀ e, txOutcome = Except.error e →
        (deleteOne acc snap s preHook txOutcome collection field).1 =
          Except.error (AppError.db e))) := by
  refine ⟨?_, ?_, ?_⟩
  · intro acc snap s preHook txOutcome relation htr
    cases h1 : isNonAdmin acc
    · cases h2 : truthyS relation.collection
      · simp [createOne, h1, h2] at htr
      · cases h3 : truthyS relation.field
        · simp [createOne, h1, h2, h3] at htr
        · cases h4 : getCollection s (relation.collection.getD "") with
          | none => simp [createOne, h1, h2, h3, h4] at htr
          | some co =>
            cases h5 : co.fields.any (fun fl => fl.name == relation.field.getD "")
            · simp [createOne, h1, h2, h3, h4, h5] at htr
            · cases h6 : co.primary == relation.field.getD ""
              · cases h7 : truthyS relation.related_collection &&
                    !(hasCollection s (relation.related_collection.getD ""))
                · cases h8 : ((snap.filter (fun r =>
                      r.collection == relation.collection.getD "")).find?
                      (fun r => r.field == relation.field.getD "")).isSome
                  · have h8' : ∀ x ∈ snap, x.collection = relation.collection.getD "" →
                        ¬x.field = relation.field.getD "" := by simpa using h8
                    have hno : ¬∃ x ∈ snap, x.collection = relation.collection.getD "" ∧
                        x.field = relation.field.getD "" := by
                      rintro ⟨x, hx, hA, hB⟩
                      exact h8' x hx hA hB
                    cases txOutcome with
                    | error e =>
                      simp only [createOne, h1, h2, h3, h4, h5, h6, h7]
                      simp [hno]
                    | ok u =>
                      simp only [createOne, h1, h2, h3, h4, h5, h6, h7]
                      simp [hno]
                      constructor
                      · split <;> rfl
                      · split <;> rfl
                  · have h8e : ∃ x ∈ snap, x.collection = relation.collection.getD "" ∧
                        x.field = relation.field.getD "" := by simpa using h8
                    simp [createOne, h1, h2, h3, h4, h5, h6, h7, h8e] at htr
                · simp [createOne, h1, h2, h3, h4, h5, h6, h7] at htr
              · simp [createOne, h1, h2, h3, h4, h5, h6] at htr
    · simp [createOne, h1] at htr
  · intro acc snap s preHook txOutcome collection field relation htr
    cases h1 : isNonAdmin acc
    · cases h2 : hasCollection s collection
      · simp [updateOne, h1, h2] at htr
      · cases h3 : hasField s collection field
        · simp [updateOne, h1, h2, h3] at htr
        · cases h4 : findRelation snap collection field with
          | none => simp [updateOne, h1, h2, h3, h4] at htr
          | some existing =>
            cases txOutcome with
            | error e => simp [updateOne, h1, h2, h3, h4]
            | ok u =>
              simp [updateOne, h1, h2, h3, h4]
              constructor <;> (split <;> rfl)
    · simp [updateOne, h1] at htr
  · intro acc snap s preHook txOutcome collection field htr
    cases h1 : isNonAdmin acc
    · cases h2 : hasCollection s collection
      · simp [deleteOne, h1, h2] at htr
      · cases h3 : hasField s collection field
        · simp [deleteOne, h1, h2, h3] at htr
        · cases h4 : findRelation snap collection field with
          | none => simp [deleteOne, h1, h2, h3, h4] at htr
          | some existing =>
            cases txOutcome with
            | error e => simp [deleteOne, h1, h2, h3, h4]
            | ok u => simp [deleteOne, h1, h2, h3, h4]
    · simp [deleteOne, h1] at htr

/-- A payload creating a plain many-to-one candidate on `a.f` with no
related collection. -/
def simplePayload : RelationPayload :=
  { collection := some "a", field := some "f" }

theorem relations_C6_witness :
    ((createOne none [] sampleIntState true (Except.error "boom")
        simplePayload).2.2.postHookRun = true ∧
      (createOne none [] sampleIntState true (Except.error "boom")
        simplePayload).1 = Except.error (AppError.db "boom")) ∧
    ((updateOne none [driftedRelation] driftedState true (Except.error "boom")
        "a" "f" { }).2.2.cacheOp = some (CacheOp.field "a" "f") ∧
      (updateOne none [driftedRelation] driftedState true (Except.error "boom")
        "a" "f" { }).1 = Except.error (AppError.db "boom")) ∧
    (deleteOne none [driftedRelation] driftedState true (Except.error "boom")
        "a" "f").2.2.postHookRun = true := by
  have hc := relations_C6.1 none [] sampleIntState true (Except.error "boom")
    simplePayload (by decide)
  have hu := relations_C6.2.1 none [driftedRelation] driftedState true
    (Except.error "boom") "a" "f" { } (by decide)
  have hd := relations_C6.2.2 none [driftedRelation] driftedState true
    (Except.error "boom") "a" "f" (by decide)
  exact ⟨⟨hc.1, hc.2.2 "boom" rfl⟩, ⟨hu.2.1, hu.2.2 "boom" rfl⟩, hd.1⟩

/-! C2: validation order and the primary-key guard of `createOne`. -/

/-- C2: for an administrative (or absent) caller, the validation failures
of `createOne` surface in exactly the source order — collection present,
field present, collection exists, field exists, field is not the primary
key, related collection exists, no relation occupies the pair — each with
its specific payload error, each leaving the state untouched with no
transaction opened; when every check passes no payload error is raised.
In particular a payload whose field is the primary key always yields
InvalidPayload with the untouched state and an unopened transaction. -/
theorem relations_C2 (acc : Option Accountability) (snap : List Relation) (s : DbState)
    (preHook : Bool) (txOutcome : Except String Unit) (relation : RelationPayload)
    (hadm : isNonAdmin acc = false) :
    (truthyS relation.collection = false →
      createOne acc snap s preHook txOutcome relation =
        (Except.error (AppError.invalidPayload PayloadErr.collectionRequired), s, {})) ∧
    (truthyS relation.collection = true → truthyS relation.field = false →
      createOne acc snap s preHook txOutcome relation =
        (Except.error (AppError.invalidPayload PayloadErr.fieldRequired), s, {})) ∧
    (truthyS relation.collection = true → truthyS relation.field = true →
      getCollection s (relation.collection.getD "") = none →
      createOne acc snap s preHook txOutcome relation =
        (Except.error (AppError.invalidPayload
          (PayloadErr.collectionMissing (relation.collection.getD ""))), s, {})) ∧
    (∀ co, truthyS relation.collection = true → truthyS relation.field = true →
      getCollection s (relation.collection.getD "") = some co →
      co.fields.any (fun fl => fl.name == relation.field.getD "") = false →
      createOne acc snap s preHook txOutcome relation =
        (Except.error (AppError.invalidPayload
          (PayloadErr.fieldMissing (relation.field.getD "") (relation.collection.getD ""))),
          s, {})) ∧
    (∀ co, truthyS relation.collection = true → truthyS relation.field = true →
      getCollection s (relation.collection.getD "") = some co →
      co.fields.any (fun fl => fl.name == relation.field.getD "") = true →
      (co.primary == relation.field.getD "") = true →
      createOne acc snap s preHook txOutcome relation =
        (Except.error (AppError.invalidPayload
          (PayloadErr.fieldIsPrimaryKey (relation.field.getD "") (relation.collection.getD ""))),
          s, {})) ∧
    (∀ co, truthyS relation.collection = true → truthyS relation.field = true →
      getCollection s (relation.collection.getD "") = some co →
      co.fields.any (fun fl => fl.name == relation.field.getD "") = true →
      (co.primary == relation.field.getD "") = false →
      (truthyS relation.related_collection &&
        !(hasCollection s (relation.related_collection.getD ""))) = true →
      createOne acc snap s preHook txOutcome relation =
        (Except.error (AppError.invalidPayload
          (PayloadErr.relatedCollectionMissing (relation.related_collection.getD ""))),
          s, {})) ∧
    (∀ co, truthyS relation.collection = true → truthyS relation.field = true →
      getCollection s (relation.collection.getD "") = some co →
      co.fields.any (fun fl => fl.name == relation.field.getD "") = true →
      (co.primary == relation.field.getD "") = false →
      (truthyS relation.related_collection &&
        !(hasCollection s (relation.related_collection.getD ""))) = false →
      ((snap.filter (fun r => r.collection == relation.collection.getD "")).find?
        (fun r => r.field == relation.field.getD "")).isSome = true →
      createOne acc snap s preHook txOutcome relation =
        (Except.error (AppError.invalidPayload
          (PayloadErr.alreadyHasRelationship (relation.field.getD "")
            (relation.collection.getD ""))), s, {})) ∧
    (∀ co, truthyS relation.collection = true → truthyS relation.field = true →
      getCollection s (relation.collection.getD "") = some co →
      co.fields.any (fun fl => fl.name == relation.field.getD "") = true →
      (co.primary == relation.field.getD "") = false →
      (truthyS relation.related_collection &&
        !(hasCollection s (relation.related_collection.getD ""))) = false →
      ((snap.filter (fun r => r.collection == relation.collection.getD "")).find?
        (fun r => r.field == relation.field.getD "")).isSome = false →
      ∀ e, (createOne acc snap s preHook txOutcome relation).1 ≠
        Except.error (AppError.invalidPayload e)) := by
  refine ⟨?_, ?_, ?_, ?_, ?_, ?_, ?_, ?_⟩
  · intro h2
    simp [createOne, hadm, h2]
  · intro h2 h3
    simp [createOne, hadm, h2, h3]
  · intro h2 h3 h4
    simp [createOne, hadm, h2, h3, h4]
  · intro co h2 h3 h4 h5
    simp [createOne, hadm, h2, h3, h4, h5]
  · intro co h2 h3 h4 h5 h6
    simp [createOne, hadm, h2, h3, h4, h5, h6]
  · intro co h2 h3 h4 h5 h6 h7
    simp [createOne, hadm, h2, h3, h4, h5, h6, h7]
  · intro co h2 h3 h4 h5 h6 h7 h8
    have h8e : ∃ x ∈ snap, x.collection = relation.collection.getD "" ∧
        x.field = relation.field.getD "" := by simpa using h8
    simp [createOne, hadm, h2, h3, h4, h5, h6, h7, h8e]
  · intro co h2 h3 h4 h5 h6 h7 h8 e
    have h8' : ∀ x ∈ snap, x.collection = relation.collection.getD "" →
        ¬x.field = relation.field.getD "" := by simpa using h8
    have hno : ¬∃ x ∈ snap, x.collection = relation.collection.getD "" ∧
        x.field = relation.field.getD "" := by
      rintro ⟨x, hx, hA, hB⟩
      exact h8' x hx hA hB
    cases txOutcome with
    | error e' =>
      simp only [createOne, hadm, h2, h3, h4, h5, h6, h7]
      simp [hno]
    | ok u =>
      simp only [createOne, hadm, h2, h3, h4, h5, h6, h7]
      simp [hno]
      split <;> simp

theorem relations_C2_witness :
    createOne none [] sampleIntState true (Except.ok ())
      { collection := some "a", field := some "id", related_collection := some "a" } =
      (Except.error (AppError.invalidPayload (PayloadErr.fieldIsPrimaryKey "id" "a")),
        sampleIntState, {}) := by
  have h := (relations_C2 none [] sampleIntState true (Except.ok ())
    { collection := some "a", field := some "id", related_collection := some "a" }
    rfl).2.2.2.2.1 sampleIntCollection (by decide) (by decide) (by decide) (by decide)
    (by decide)
  exact h

/-! C10: behaviour with absent accountability. -/

@[simp] theorem isNonAdmin_none : isNonAdmin none = false := rfl

/-- C10 (amended): with absent accountability every entry point behaves
exactly as for an administrative caller: `createOne`, `updateOne` and
`deleteOne` never return Forbidden and equal their administrative runs,
`readAll` never returns Forbidden, and `readOne` returns exactly what it
returns for an administrative caller — which still includes the Forbidden
raised when stitching and filtering yield zero descriptors. -/
theorem relations_C10 :
    (∀ (snap : List Relation) (s : DbState) (preHook : Bool)
        (txOutcome : Except String Unit) (relation : RelationPayload),
      (createOne none snap s preHook txOutcome relation).1 ≠
        Except.error AppError.forbidden ∧
      ∀ a : Accountability, a.admin = true →
        createOne (some a) snap s preHook txOutcome relation =
          createOne none snap s preHook txOutcome relation) ∧
    (∀ (snap : List Relation) (s : DbState) (preHook : Bool)
        (txOutcome : Except String Unit) (collection field : String)
        (relation : RelationPayload),
      (updateOne none snap s preHook txOutcome collection field relation).1 ≠
        Except.error AppError.forbidden ∧
      ∀ a : Accountability, a.admin = true →
        updateOne (some a) snap s preHook txOutcome collection field relation =
          updateOne none snap s preHook txOutcome collection field relation) ∧
    (∀ (snap : List Relation) (s : DbState) (preHook : Bool)
        (txOutcome : Except String Unit) (collection field : String),
      (deleteOne none snap s preHook txOutcome collection field).1 ≠
        Except.error AppError.forbidden ∧
      ∀ a : Accountability, a.admin = true →
        deleteOne (some a) snap s preHook txOutcome collection field =
          deleteOne none snap s preHook txOutcome collection field) ∧
    (∀ (af : String → Option (List String)) (sysRows store : List MetaRow)
        (fks : List ForeignKey) (collection : Option String),
      readAll none af sysRows store fks collection ≠ Except.error AppError.forbidden ∧
      ∀ a : Accountability, a.admin = true →
        readAll (some a) af sysRows store fks collection =
          readAll none af sysRows store fks collection) ∧
    (∀ (af : String → Option (List String)) (store : List MetaRow)
        (fks : List ForeignKey) (collection field : String),
      ∀ a : Accountability, a.admin = true →
        readOne (some a) af store fks collection field =
          readOne none af store fks collection field) := by
  refine ⟨?_, ?_, ?_, ?_, ?_⟩
  · intro snap s preHook txOutcome relation
    constructor
    · cases h2 : truthyS relation.collection
      · simp [createOne, h2]
      · cases h3 : truthyS relation.field
        · simp [createOne, h2, h3]
        · cases h4 : getCollection s (relation.collection.getD "") with
          | none => simp [createOne, h2, h3, h4]
          | some co =>
            cases h5 : co.fields.any (fun fl => fl.name == relation.field.getD "")
            · simp [createOne, h2, h3, h4, h5]
            · cases h6 : co.primary == relation.field.getD ""
              · cases h7 : truthyS relation.related_collection &&
                    !(hasCollection s (relation.related_collection.getD ""))
                · cases h8 : ((snap.filter (fun r =>
                      r.collection == relation.collection.getD "")).find?
                      (fun r => r.field == relation.field.getD "")).isSome
                  · have h8' : ∀ x ∈ snap, x.collection = relation.collection.getD "" →
                        ¬x.field = relation.field.getD "" := by simpa using h8
                    have hno : ¬∃ x ∈ snap, x.collection = relation.collection.getD "" ∧
                        x.field = relation.field.getD "" := by
                      rintro ⟨x, hx, hA, hB⟩
                      exact h8' x hx hA hB
                    cases txOutcome with
                    | error e =>
                      simp only [createOne, isNonAdmin_none, h2, h3, h4, h5, h6, h7]
                      simp [hno]
                    | ok u =>
                      simp only [createOne, isNonAdmin_none, h2, h3, h4, h5, h6, h7]
                      simp [hno]
                      split <;> simp
                  · have h8e : ∃ x ∈ snap, x.collection = relation.collection.getD "" ∧
                        x.field = relation.field.getD "" := by simpa using h8
                    simp [createOne, h2, h3, h4, h5, h6, h7, h8e]
                · simp [createOne, h2, h3, h4, h5, h6, h7]
              · simp [createOne, h2, h3, h4, h5, h6]
    · intro a h
      have ha : isNonAdmin (some a) = false := by simp [isNonAdmin, h]
      simp only [createOne, ha, isNonAdmin_none]
  · intro snap s preHook txOutcome collection field relation
    constructor
    · cases h2 : hasCollection s collection
      · simp [updateOne, h2]
      · cases h3 : hasField s collection field
        · simp [updateOne, h2, h3]
        · cases h4 : findRelation snap collection field with
          | none => simp [updateOne, h2, h3, h4]
          | some existing =>
            cases txOutcome with
            | error e => simp [updateOne, h2, h3, h4]
            | ok u =>
              simp [updateOne, h2, h3, h4]
              split <;> simp
    · intro a h
      have ha : isNonAdmin (some a) = false := by simp [isNonAdmin, h]
      simp only [updateOne, ha, isNonAdmin_none]
  · intro snap s preHook txOutcome collection field
    constructor
    · cases h2 : hasCollection s collection
      · simp [deleteOne, h2]
      · cases h3 : hasField s collection field
        · simp [deleteOne, h2, h3]
        · cases h4 : findRelation snap collection field with
          | none => simp [deleteOne, h2, h3, h4]
          | some existing =>
            cases txOutcome with
            | error e => simp [deleteOne, h2, h3, h4]
            | ok u => simp [deleteOne, h2, h3, h4]
    · intro a h
      have ha : isNonAdmin (some a) = false := by simp [isNonAdmin, h]
      simp only [deleteOne, ha, isNonAdmin_none]
  · intro af sysRows store fks collection
    constructor
    · simp [readAll, isNonAdmin_none]
    · intro a h
      have ha : isNonAdmin (some a) = false := by simp [isNonAdmin, h]
      simp [readAll, ha, isNonAdmin_none, filterForbidden, h]
  · intro af store fks collection field a h
    simp [readOne, readOneCore, filterForbidden, h]

/-- C10 counterexample: with absent accountability, `readOne` on a state
with no matching relation still raises Forbidden, so an operation does
raise Forbidden for the absent-accountability caller. -/
theorem relations_C10_cex :
    readOne none (fun _ => none) [] [] "a" "b" = Except.error AppError.forbidden := by
  rfl

theorem relations_C10_witness :
    (createOne none [] sampleIntState true (Except.ok ()) simplePayload).1 ≠
      Except.error AppError.forbidden ∧
    readOne (some { admin := true, permissions := none }) (fun _ => none) [] [] "a" "b" =
      readOne none (fun _ => none) [] [] "a" "b" := by
  constructor
  · exact (relations_C10.1 [] sampleIntState true (Except.ok ()) simplePayload).1
  · exact relations_C10.2.2.2.2 (fun _ => none) [] [] "a" "b"
      { admin := true, permissions := none } rfl

/-! C4 infrastructure: a characterization of the relation a state derives
for a `(collection, field)` pair. -/

/-- Whether a physical key sits at the given `(collection, field)`. -/
def fkKeyIs (c f : String) (fk : ForeignKey) : Bool :=
  fk.table == c && fk.column == f

/-- Whether a metadata row describes the given `(collection, field)`. -/
def metaKeyIs (c f : String) (m : MetaRow) : Bool :=
  m.many_collection.getD "" == c && m.many_field.getD "" == f

/-- The related collection a stitched metadata row ends up with: the
referenced table of its matching physical key if one exists, else its own
`one_collection`. -/
def relatedOf (fks : List ForeignKey) (m : MetaRow) : Option String :=
  match fks.find? (fun fk => metaMatches m fk) with
  | some fk => some fk.foreign_key_table
  | none => m.one_collection

theorem stitchOne_collection (fks : List ForeignKey) (m : MetaRow) :
    (stitchOne fks m).collection = m.many_collection.getD "" := by
  unfold stitchOne
  cases hfind : fks.find? (fun fk => metaMatches m fk) with
  | none => rfl
  | some fk =>
    have h : metaMatches m fk = true := List.find?_some hfind
    unfold metaMatches at h
    rw [Bool.and_eq_true] at h
    obtain ⟨h1, _⟩ := h
    have : m.many_collection = some fk.table := by simpa using h1
    simp [this]

theorem stitchOne_field (fks : List ForeignKey) (m : MetaRow) :
    (stitchOne fks m).field = m.many_field.getD "" := by
  unfold stitchOne
  cases hfind : fks.find? (fun fk => metaMatches m fk) with
  | none => rfl
  | some fk =>
    have h : metaMatches m fk = true := List.find?_some hfind
    unfold metaMatches at h
    rw [Bool.and_eq_true] at h
    obtain ⟨_, h2⟩ := h
    have : m.many_field = some fk.column := by simpa using h2
    simp [this]

theorem stitchOne_related (fks : List ForeignKey) (m : MetaRow) :
    (stitchOne fks m).related_collection = relatedOf fks m := by
  unfold stitchOne relatedOf
  cases hfind : fks.find? (fun fk => metaMatches m fk) <;> rfl

theorem stitchOne_meta (fks : List ForeignKey) (m : MetaRow) :
    (stitchOne fks m).meta = some m := by
  unfold stitchOne
  cases hfind : fks.find? (fun fk => metaMatches m fk) <;> rfl

/-- The relation derived for `(c, f)`: the first metadata row keyed at the
pair if any, stitched; else the first unmatched physical key at the
pair. -/
theorem stitch_char (metaRows : List MetaRow) (fks : List ForeignKey) (c f : String) :
    findRelation (stitchRelations metaRows fks) c f =
      (match metaRows.find? (metaKeyIs c f) with
      | some m => some (stitchOne fks m)
      | none => ((unmatchedFks metaRows fks).find? (fkKeyIs c f)).map fkRelation) := by
  unfold findRelation stitchRelations
  rw [List.find?_append, List.find?_map, List.find?_map]
  have hp1 : ((fun r : Relation => r.collection == c && r.field == f) ∘ stitchOne fks) =
      metaKeyIs c f := by
    funext m
    simp only [Function.comp]
    rw [stitchOne_collection, stitchOne_field]
    rfl
  have hp2 : ((fun r : Relation => r.collection == c && r.field == f) ∘ fkRelation) =
      fkKeyIs c f := by
    funext fk
    rfl
  rw [hp1, hp2]
  cases metaRows.find? (metaKeyIs c f) with
  | some m => rfl
  | none => simp [Option.or]

theorem metaKeyIs_identity (m : MetaRow) (c f : String) (hc : c ≠ "") (hf : f ≠ "")
    (h : metaKeyIs c f m = true) :
    m.many_collection = some c ∧ m.many_field = some f := by
  unfold metaKeyIs at h
  rw [Bool.and_eq_true] at h
  obtain ⟨h1, h2⟩ := h
  have h1' : m.many_collection.getD "" = c := by simpa using h1
  have h2' : m.many_field.getD "" = f := by simpa using h2
  constructor
  · cases hmc : m.many_collection with
    | none => rw [hmc] at h1'; exact absurd h1'.symm hc
    | some v => rw [hmc] at h1'; simp at h1'; rw [h1']
  · cases hmf : m.many_field with
    | none => rw [hmf] at h2'; exact absurd h2'.symm hf
    | some v => rw [hmf] at h2'; simp at h2'; rw [h2']

theorem metaMatches_keyed (m : MetaRow) (c f : String)
    (h1 : m.many_collection = some c) (h2 : m.many_field = some f) :
    (fun fk => metaMatches m fk) = fkKeyIs c f := by
  funext fk
  unfold metaMatches fkKeyIs
  rw [h1, h2]
  show (c == fk.table && f == fk.column) = (fk.table == c && fk.column == f)
  rw [beqSymm c fk.table, beqSymm f fk.column]

theorem relatedOf_keyed (fks : List ForeignKey) (m : MetaRow) (c f : String)
    (h1 : m.many_collection = some c) (h2 : m.many_field = some f) :
    relatedOf fks m =
      (match fks.find? (fkKeyIs c f) with
      | some fk => some fk.foreign_key_table
      | none => m.one_collection) := by
  unfold relatedOf
  rw [metaMatches_keyed m c f h1 h2]

theorem relatedOf_congr (fks : List ForeignKey) (m m' : MetaRow)
    (h1 : m'.many_collection = m.many_collection) (h2 : m'.many_field = m.many_field)
    (h3 : m'.one_collection = m.one_collection) :
    relatedOf fks m' = relatedOf fks m := by
  unfold relatedOf
  have hmm : (fun fk => metaMatches m' fk) = (fun fk => metaMatches m fk) := by
    funext fk
    unfold metaMatches
    rw [h1, h2]
  rw [hmm, h3]

theorem metaKeyIs_congr (c f : String) (m m' : MetaRow)
    (h1 : m'.many_collection = m.many_collection) (h2 : m'.many_field = m.many_field) :
    metaKeyIs c f m' = metaKeyIs c f m := by
  unfold metaKeyIs
  rw [h1, h2]

theorem find?_filter_all {α : Type} (l : List α) (p q : α → Bool)
    (h : ∀ x ∈ l, p x = true → q x = true) : (l.filter q).find? p = l.find? p := by
  have := find?_filter_congr l p q (fun _ => true) (fun x hx hp => by rw [h x hx hp])
  simpa using this

/-- The invariant of spec section 3 that the physical keys of a state have
pairwise distinct `(table, column)` pairs. -/
def fkKeysUnique (fks : List ForeignKey) : Prop :=
  fks.Pairwise (fun k1 k2 => k1.table ≠ k2.table ∨ k1.column ≠ k2.column)

theorem fk_unique_eq (fks : List ForeignKey) (hwf : fkKeysUnique fks) (c f : String)
    (fk1 fk2 : ForeignKey) (h1 : fk1 ∈ fks) (h2 : fk2 ∈ fks)
    (k1 : fkKeyIs c f fk1 = true) (k2 : fkKeyIs c f fk2 = true) : fk1 = fk2 := by
  by_contra hne
  have hsymm : Symmetric (fun k1 k2 : ForeignKey =>
      k1.table ≠ k2.table ∨ k1.column ≠ k2.column) := by
    intro x y hxy
    cases hxy with
    | inl hx => exact Or.inl (Ne.symm hx)
    | inr hx => exact Or.inr (Ne.symm hx)
  have hr := List.Pairwise.forall hsymm hwf h1 h2 hne
  unfold fkKeyIs at k1 k2
  rw [Bool.and_eq_true] at k1 k2
  obtain ⟨k1a, k1b⟩ := k1
  obtain ⟨k2a, k2b⟩ := k2
  have e1 : fk1.table = c := by simpa using k1a
  have e2 : fk1.column = f := by simpa using k1b
  have e3 : fk2.table = c := by simpa using k2a
  have e4 : fk2.column = f := by simpa using k2b
  cases hr with
  | inl hx => exact hx (e1.trans e3.symm)
  | inr hx => exact hx (e2.trans e4.symm)

theorem updateMetaStep_fks (s1 : DbState) (existing : Relation)
    (relation : RelationPayload) :
    (updateMetaStep s1 existing relation).foreignKeys = s1.foreignKeys := by
  unfold updateMetaStep
  cases relation.meta with
  | none => rfl
  | some p =>
    cases existing.meta with
    | some m => rfl
    | none => rfl

theorem updateFkStep_falsy (s : DbState) (existing : Relation) (collection field : String)
    (relation : RelationPayload) (h : truthyS existing.related_collection = false) :
    updateFkStep s existing collection field relation = Except.ok s := by
  unfold updateFkStep
  rw [h]
  rfl

/-- On success with a truthy related collection, the foreign-key step
keeps the metadata rows and the fresh-id counter, keeps a subset of the
physical keys, and appends the recreated constraint at the pair. -/
theorem updateFkStep_shape (s : DbState) (existing : Relation) (collection field : String)
    (relation : RelationPayload) (s1 : DbState) (x : String)
    (hrel : existing.related_collection = some x) (hx : x ≠ "")
    (h : updateFkStep s existing collection field relation = Except.ok s1) :
    s1.metaRows = s.metaRows ∧ s1.nextId = s.nextId ∧
    ∃ K0 name refcol,
      (∀ fk ∈ K0, fk ∈ s.foreignKeys) ∧
      s1.foreignKeys = K0 ++
        [{ table := collection, column := field, foreign_key_table := x,
           foreign_key_column := refcol, constraint_name := some name,
           on_delete := onDeleteOf relation }] := by
  unfold updateFkStep at h
  have htr : truthyS existing.related_collection = true := by
    rw [hrel]
    simp [truthyS, hx]
  rw [if_pos htr] at h
  cases halter : alterType s relation.collection relation.field relation.related_collection with
  | error e =>
    rw [halter] at h
    exact nomatch h
  | ok dec =>
    rw [halter] at h
    simp only [hrel, Option.getD_some] at h
    cases hrco : getCollection s x with
    | none =>
      rw [hrco] at h
      exact nomatch h
    | some rco =>
      rw [hrco] at h
      injection h with h'
      subst h'
      cases dec with
      | some t =>
        cases hsch : existing.schema with
        | some sch =>
          refine ⟨rfl, rfl, (dropForeignKey s collection
            (updateConstraintName existing (getDefaultIndexName "foreign" collection field))).foreignKeys,
            updateConstraintName existing (getDefaultIndexName "foreign" collection field),
            rco.primary, ?_, ?_⟩
          · intro fk hfk
            exact (List.mem_filter.mp hfk).1
          · simp [addForeignKey, setFieldDbType, dropForeignKey, hsch]
        | none =>
          refine ⟨rfl, rfl, s.foreignKeys,
            updateConstraintName existing (getDefaultIndexName "foreign" collection field),
            rco.primary, fun fk hfk => hfk, ?_⟩
          simp [addForeignKey, setFieldDbType, hsch]
      | none =>
        cases hsch : existing.schema with
        | some sch =>
          refine ⟨rfl, rfl, (dropForeignKey s collection
            (updateConstraintName existing (getDefaultIndexName "foreign" collection field))).foreignKeys,
            updateConstraintName existing (getDefaultIndexName "foreign" collection field),
            rco.primary, ?_, ?_⟩
          · intro fk hfk
            exact (List.mem_filter.mp hfk).1
          · simp [addForeignKey, dropForeignKey, hsch]
        | none =>
          refine ⟨rfl, rfl, s.foreignKeys,
            updateConstraintName existing (getDefaultIndexName "foreign" collection field),
            rco.primary, fun fk hfk => hfk, ?_⟩
          simp [addForeignKey, hsch]

theorem keyfind_aux (K0 sfks : List ForeignKey) (collection field x : String)
    (hsub : ∀ fk ∈ K0, fk ∈ sfks)
    (hall : ∀ fk ∈ sfks, fkKeyIs collection field fk = true → fk.foreign_key_table = x)
    (newFk : ForeignKey) (hkey : fkKeyIs collection field newFk = true)
    (hxtbl : newFk.foreign_key_table = x) :
    (∃ fk1, (K0 ++ [newFk]).find? (fkKeyIs collection field) = some fk1 ∧
      fk1.foreign_key_table = x) ∧
    (∀ fk ∈ K0 ++ [newFk], fkKeyIs collection field fk = true →
      fk.foreign_key_table = x) := by
  constructor
  · rw [List.find?_append]
    cases hfind : K0.find? (fkKeyIs collection field) with
    | some fk0 =>
      refine ⟨fk0, rfl, ?_⟩
      exact hall fk0 (hsub fk0 (List.mem_of_find?_eq_some hfind)) (List.find?_some hfind)
    | none =>
      refine ⟨newFk, ?_, hxtbl⟩
      simp [List.find?_cons, hkey]
  · intro fk hfk hkeyfk
    rcases List.mem_append.mp hfk with hin | hin
    · exact hall fk (hsub fk hin) hkeyfk
    · rw [List.mem_singleton.mp hin]
      exact hxtbl

theorem metaMatches_key (m : MetaRow) (fk : ForeignKey) (c f : String)
    (hm : metaMatches m fk = true) (hk : fkKeyIs c f fk = true) :
    metaKeyIs c f m = true := by
  unfold metaMatches at hm
  unfold fkKeyIs at hk
  rw [Bool.and_eq_true] at hm hk
  obtain ⟨hm1, hm2⟩ := hm
  obtain ⟨hk1, hk2⟩ := hk
  have e1 : m.many_collection = some fk.table := by simpa using hm1
  have e2 : m.many_field = some fk.column := by simpa using hm2
  have e3 : fk.table = c := by simpa using hk1
  have e4 : fk.column = f := by simpa using hk2
  unfold metaKeyIs
  rw [e1, e2, e3, e4]
  simp

theorem find?_none_key_unmatched (M : List MetaRow) (K1 : List ForeignKey) (c f : String)
    (hM : ∀ m ∈ M, ¬(metaKeyIs c f m = true)) :
    (unmatchedFks M K1).find? (fkKeyIs c f) = K1.find? (fkKeyIs c f) := by
  unfold unmatchedFks
  apply find?_filter_all
  intro fk hfk hkey
  cases hany : M.any (fun m => metaMatches m fk) with
  | false => rfl
  | true =>
    obtain ⟨m, hmem, hmm⟩ := List.any_eq_true.mp hany
    exact absurd (metaMatches_key m fk c f hmm hkey) (hM m hmem)

/-- The amendment hypothesis of C4: the payload meta, when present, does
not write the identity columns of the metadata row. -/
def preservesMetaIdentity (relation : RelationPayload) : Prop :=
  match relation.meta with
  | none => True
  | some p => p.many_collection = none ∧ p.many_field = none ∧ p.one_collection = none

theorem patchFun_identity (idv : Nat) (p : MetaPatch)
    (hp : p.many_collection = none ∧ p.many_field = none ∧ p.one_collection = none)
    (m : MetaRow) :
    ((if m.id = idv then applyPatch m p else m).many_collection = m.many_collection) ∧
    ((if m.id = idv then applyPatch m p else m).many_field = m.many_field) ∧
    ((if m.id = idv then applyPatch m p else m).one_collection = m.one_collection) := by
  obtain ⟨h1, h2, h3⟩ := hp
  by_cases h : m.id = idv <;> simp [h, applyPatch, h1, h2, h3]

theorem stitch_nometa_case (M : List MetaRow) (K1 : List ForeignKey) (c f : String)
    (fk1 : ForeignKey)
    (hM : ∀ m ∈ M, ¬(metaKeyIs c f m = true))
    (hKfind : K1.find? (fkKeyIs c f) = some fk1) :
    ∃ r', findRelation (stitchRelations M K1) c f = some r' ∧
      r'.collection = c ∧ r'.field = f ∧
      r'.related_collection = some fk1.foreign_key_table := by
  have hkey : fkKeyIs c f fk1 = true := List.find?_some hKfind
  unfold fkKeyIs at hkey
  rw [Bool.and_eq_true] at hkey
  have ht : fk1.table = c := by simpa using hkey.1
  have hcl : fk1.column = f := by simpa using hkey.2
  have hMn : M.find? (metaKeyIs c f) = none := List.find?_eq_none.mpr hM
  refine ⟨fkRelation fk1, ?_, ht, hcl, rfl⟩
  rw [stitch_char, hMn, find?_none_key_unmatched M K1 c f hM, hKfind]
  rfl

theorem stitch_insert_case (M : List MetaRow) (K1 : List ForeignKey) (c f : String)
    (hc : c ≠ "") (hf : f ≠ "") (newRow : MetaRow) (fk1 : ForeignKey)
    (hM : ∀ m ∈ M, ¬(metaKeyIs c f m = true))
    (hKfind : K1.find? (fkKeyIs c f) = some fk1) :
    ∃ r', findRelation (stitchRelations (M ++ [newRow]) K1) c f = some r' ∧
      r'.collection = c ∧ r'.field = f ∧
      r'.related_collection = some fk1.foreign_key_table := by
  have hMn : M.find? (metaKeyIs c f) = none := List.find?_eq_none.mpr hM
  cases hnk : metaKeyIs c f newRow with
  | true =>
    have hfind : (M ++ [newRow]).find? (metaKeyIs c f) = some newRow := by
      rw [List.find?_append, hMn]
      simp [List.find?_cons, hnk]
    obtain ⟨hid1, hid2⟩ := metaKeyIs_identity newRow c f hc hf hnk
    refine ⟨stitchOne K1 newRow, ?_, ?_, ?_, ?_⟩
    · rw [stitch_char, hfind]
    · rw [stitchOne_collection, hid1]
      rfl
    · rw [stitchOne_field, hid2]
      rfl
    · rw [stitchOne_related, relatedOf_keyed K1 newRow c f hid1 hid2, hKfind]
  | false =>
    have hfind : (M ++ [newRow]).find? (metaKeyIs c f) = none := by
      rw [List.find?_append, hMn]
      simp [List.find?_cons, hnk]
    have hM2 : ∀ m ∈ M ++ [newRow], ¬(metaKeyIs c f m = true) := by
      intro m hmem
      rcases List.mem_append.mp hmem with hin | hin
      · exact hM m hin
      · rw [List.mem_singleton.mp hin]
        rw [hnk]
        simp
    have hkey : fkKeyIs c f fk1 = true := List.find?_some hKfind
    unfold fkKeyIs at hkey
    rw [Bool.and_eq_true] at hkey
    have ht : fk1.table = c := by simpa using hkey.1
    have hcl : fk1.column = f := by simpa using hkey.2
    refine ⟨fkRelation fk1, ?_, ht, hcl, rfl⟩
    rw [stitch_char, hfind, find?_none_key_unmatched (M ++ [newRow]) K1 c f hM2, hKfind]
    rfl

/-- C4 (amended): for every successful `updateOne` on a state whose
physical keys have pairwise distinct `(table, column)` pairs, with a
nonempty collection and field and a payload whose meta patch does not
write the metadata identity columns, the `(collection, field,
related_collection)` triple of the relation at the pair is unchanged:
the recreated constraint references the existing related collection and
the payload cannot move the pair, including when a metadata row is first
created for a previously schema-only relation. -/
theorem relations_C4 (acc : Option Accountability) (s : DbState) (preHook : Bool)
    (txOutcome : Except String Unit) (collection field : String)
    (relation : RelationPayload)
    (hc : collection ≠ "") (hf : field ≠ "")
    (hwf : fkKeysUnique s.foreignKeys)
    (hmeta : preservesMetaIdentity relation)
    (hok : (updateOne acc (stitchRelations s.metaRows s.foreignKeys) s preHook txOutcome
      collection field relation).1 = Except.ok ()) :
    ∃ r r', getRelationsForField s collection field = some r ∧
      getRelationsForField
        (updateOne acc (stitchRelations s.metaRows s.foreignKeys) s preHook txOutcome
          collection field relation).2.1 collection field = some r' ∧
      r'.collection = r.collection ∧ r'.field = r.field ∧
      r'.related_collection = r.related_collection := by
  cases h1 : isNonAdmin acc with
  | true => simp [updateOne, h1] at hok
  | false =>
  cases h2 : hasCollection s collection with
  | false => simp [updateOne, h1, h2] at hok
  | true =>
  cases h3 : hasField s collection field with
  | false => simp [updateOne, h1, h2, h3] at hok
  | true =>
  cases h4 : findRelation (stitchRelations s.metaRows s.foreignKeys) collection field with
  | none => simp [updateOne, h1, h2, h3, h4] at hok
  | some existing =>
  cases txOutcome with
  | error e => simp [updateOne, h1, h2, h3, h4] at hok
  | ok u =>
  cases hfk : updateFkStep s existing collection field relation with
  | error e => simp [updateOne, h1, h2, h3, h4, hfk] at hok
  | ok s1 =>
  have hstate : (updateOne acc (stitchRelations s.metaRows s.foreignKeys) s preHook
      (Except.ok u) collection field relation).2.1 = updateMetaStep s1 existing relation := by
    simp [updateOne, h1, h2, h3, h4, hfk]
  rw [hstate]
  have hfks2 := updateMetaStep_fks s1 existing relation
  have hchar4 : (match s.metaRows.find? (metaKeyIs collection field) with
      | some m => some (stitchOne s.foreignKeys m)
      | none => ((unmatchedFks s.metaRows s.foreignKeys).find?
          (fkKeyIs collection field)).map fkRelation) = some existing := by
    rw [← stitch_char]
    exact h4
  cases hm : s.metaRows.find? (metaKeyIs collection field) with
  | some m0 =>
    rw [hm] at hchar4
    have hex : stitchOne s.foreignKeys m0 = existing := by
      injection hchar4
    have hkey0 : metaKeyIs collection field m0 = true := List.find?_some hm
    obtain ⟨hid1, hid2⟩ := metaKeyIs_identity m0 collection field hc hf hkey0
    have hexmeta : existing.meta = some m0 := by
      rw [← hex, stitchOne_meta]
    have hexcol : existing.collection = collection := by
      rw [← hex, stitchOne_collection, hid1]
      rfl
    have hexfld : existing.field = field := by
      rw [← hex, stitchOne_field, hid2]
      rfl
    have hexrel : existing.related_collection = relatedOf s.foreignKeys m0 := by
      rw [← hex, stitchOne_related]
    cases hrel : truthyS existing.related_collection with
    | false =>
      have hs1 : s1 = s := by
        have hfal := updateFkStep_falsy s existing collection field relation hrel
        rw [hfal] at hfk
        injection hfk with hh
        exact hh.symm
      subst hs1
      cases hpm : relation.meta with
      | none =>
        have hms : updateMetaStep s1 existing relation = s1 := by
          unfold updateMetaStep
          rw [hpm]
        refine ⟨existing, existing, h4, ?_, rfl, rfl, rfl⟩
        rw [hms]
        exact h4
      | some p =>
        have hp : p.many_collection = none ∧ p.many_field = none ∧
            p.one_collection = none := by
          unfold preservesMetaIdentity at hmeta
          rw [hpm] at hmeta
          exact hmeta
        have hms : updateMetaStep s1 existing relation = patchMetaRow s1 m0.id p := by
          unfold updateMetaStep
          rw [hpm, hexmeta]
        rw [hms]
        have hg := patchFun_identity m0.id p hp
        have hpred : ∀ m, metaKeyIs collection field
            ((fun m => if m.id = m0.id then applyPatch m p else m) m) =
            metaKeyIs collection field m := by
          intro m
          exact metaKeyIs_congr collection field m _ (hg m).1 (hg m).2.1
        have hfind2 : ((s1.metaRows.map (fun m => if m.id = m0.id then applyPatch m p else m)).find?
            (metaKeyIs collection field)) =
            some (if m0.id = m0.id then applyPatch m0 p else m0) := by
          rw [find?_map_pred_inv _ _ _ hpred, hm]
          rfl
        refine ⟨existing, stitchOne s1.foreignKeys
          (if m0.id = m0.id then applyPatch m0 p else m0), h4, ?_, ?_, ?_, ?_⟩
        · rw [getRelationsForField, stitch_char]
          have hmr : (patchMetaRow s1 m0.id p).metaRows =
              s1.metaRows.map (fun m => if m.id = m0.id then applyPatch m p else m) := rfl
          have hkr : (patchMetaRow s1 m0.id p).foreignKeys = s1.foreignKeys := rfl
          rw [hmr, hkr, hfind2]
        · rw [stitchOne_collection, (hg m0).1, hid1, hexcol]
          rfl
        · rw [stitchOne_field, (hg m0).2.1, hid2, hexfld]
          rfl
        · rw [stitchOne_related,
            relatedOf_congr s1.foreignKeys m0 _ (hg m0).1 (hg m0).2.1 (hg m0).2.2, hexrel]
    | true =>
      obtain ⟨x, hxeq⟩ : ∃ x, existing.related_collection = some x := by
        cases hre : existing.related_collection with
        | none => rw [hre] at hrel; exact nomatch hrel
        | some v => exact ⟨v, rfl⟩
      have hx : x ≠ "" := by
        rw [hxeq] at hrel
        unfold truthyS at hrel
        simpa using hrel
      obtain ⟨hmr1, hnid1, K0, name, refcol, hsub, hKeq⟩ :=
        updateFkStep_shape s existing collection field relation s1 x hxeq hx hfk
      have hro : relatedOf s.foreignKeys m0 = some x := by
        rw [← hexrel]
        exact hxeq
      rw [relatedOf_keyed s.foreignKeys m0 collection field hid1 hid2] at hro
      have hall : ∀ fk ∈ s.foreignKeys, fkKeyIs collection field fk = true →
          fk.foreign_key_table = x := by
        cases hKf : s.foreignKeys.find? (fkKeyIs collection field) with
        | none =>
          intro fk hfkK hkeyfk
          exact absurd hkeyfk (List.find?_eq_none.mp hKf fk hfkK)
        | some fkp =>
          rw [hKf] at hro
          have hxval : fkp.foreign_key_table = x := by injection hro
          intro fk hfkK hkeyfk
          have heqp : fk = fkp := fk_unique_eq s.foreignKeys hwf collection field fk fkp
            hfkK (List.mem_of_find?_eq_some hKf) hkeyfk (List.find?_some hKf)
          rw [heqp, hxval]
      have hnewkey : fkKeyIs collection field
          { table := collection, column := field, foreign_key_table := x,
            foreign_key_column := refcol, constraint_name := some name,
            on_delete := onDeleteOf relation } = true := by
        simp [fkKeyIs]
      have hkf := keyfind_aux K0 s.foreignKeys collection field x hsub hall _ hnewkey rfl
      rw [← hKeq] at hkf
      obtain ⟨⟨fk1, hfk1find, hfk1x⟩, hall1⟩ := hkf
      cases hpm : relation.meta with
      | none =>
        have hms : updateMetaStep s1 existing relation = s1 := by
          unfold updateMetaStep
          rw [hpm]
        rw [hms]
        refine ⟨existing, stitchOne s1.foreignKeys m0, h4, ?_, ?_, ?_, ?_⟩
        · rw [getRelationsForField, stitch_char, hmr1, hm]
        · rw [stitchOne_collection, hid1, hexcol]
          rfl
        · rw [stitchOne_field, hid2, hexfld]
          rfl
        · rw [stitchOne_related,
            relatedOf_keyed s1.foreignKeys m0 collection field hid1 hid2, hfk1find, hxeq]
          show some fk1.foreign_key_table = some x
          rw [hfk1x]
      | some p =>
        have hp : p.many_collection = none ∧ p.many_field = none ∧
            p.one_collection = none := by
          unfold preservesMetaIdentity at hmeta
          rw [hpm] at hmeta
          exact hmeta
        have hms : updateMetaStep s1 existing relation = patchMetaRow s1 m0.id p := by
          unfold updateMetaStep
          rw [hpm, hexmeta]
        rw [hms]
        have hg := patchFun_identity m0.id p hp
        have hpred : ∀ m, metaKeyIs collection field
            ((fun m => if m.id = m0.id then applyPatch m p else m) m) =
            metaKeyIs collection field m := by
          intro m
          exact metaKeyIs_congr collection field m _ (hg m).1 (hg m).2.1
        have hfind2 : ((s1.metaRows.map (fun m => if m.id = m0.id then applyPatch m p else m)).find?
            (metaKeyIs collection field)) =
            some (if m0.id = m0.id then applyPatch m0 p else m0) := by
          rw [find?_map_pred_inv _ _ _ hpred, hmr1, hm]
          rfl
        refine ⟨existing, stitchOne s1.foreignKeys
          (if m0.id = m0.id then applyPatch m0 p else m0), h4, ?_, ?_, ?_, ?_⟩
        · rw [getRelationsForField, stitch_char]
          have hmr : (patchMetaRow s1 m0.id p).metaRows =
              s1.metaRows.map (fun m => if m.id = m0.id then applyPatch m p else m) := rfl
          have hkr : (patchMetaRow s1 m0.id p).foreignKeys = s1.foreignKeys := rfl
          rw [hmr, hkr, hfind2]
        · rw [stitchOne_collection, (hg m0).1, hid1, hexcol]
          rfl
        · rw [stitchOne_field, (hg m0).2.1, hid2, hexfld]
          rfl
        · rw [stitchOne_related,
            relatedOf_congr s1.foreignKeys m0 _ (hg m0).1 (hg m0).2.1 (hg m0).2.2,
            relatedOf_keyed s1.foreignKeys m0 collection field hid1 hid2, hfk1find, hxeq]
          show some fk1.foreign_key_table = some x
          rw [hfk1x]
  | none =>
    rw [hm] at hchar4
    have hMnone : ∀ m ∈ s.metaRows, ¬(metaKeyIs collection field m = true) :=
      List.find?_eq_none.mp hm
    obtain ⟨fk0, hunm, hex⟩ : ∃ fk0, (unmatchedFks s.metaRows s.foreignKeys).find?
        (fkKeyIs collection field) = some fk0 ∧ fkRelation fk0 = existing := by
      cases hu : (unmatchedFks s.metaRows s.foreignKeys).find? (fkKeyIs collection field) with
      | none =>
        rw [hu] at hchar4
        exact nomatch hchar4
      | some fk0 =>
        rw [hu] at hchar4
        exact ⟨fk0, rfl, by injection hchar4⟩
    have hkeyfk0 : fkKeyIs collection field fk0 = true := List.find?_some hunm
    have hfk0mem : fk0 ∈ s.foreignKeys := by
      have hmem := List.mem_of_find?_eq_some hunm
      unfold unmatchedFks at hmem
      exact (List.mem_filter.mp hmem).1
    have hkeyparts := hkeyfk0
    rw [fkKeyIs, Bool.and_eq_true] at hkeyparts
    have hexcol : existing.collection = collection := by
      rw [← hex]
      show fk0.table = collection
      simpa using hkeyparts.1
    have hexfld : existing.field = field := by
      rw [← hex]
      show fk0.column = field
      simpa using hkeyparts.2
    have hexrel : existing.related_collection = some fk0.foreign_key_table := by
      rw [← hex]
      rfl
    have hexmeta : existing.meta = none := by
      rw [← hex]
      rfl
    have hKfind : s.foreignKeys.find? (fkKeyIs collection field) = some fk0 := by
      cases hKf : s.foreignKeys.find? (fkKeyIs collection field) with
      | none => exact absurd hkeyfk0 (List.find?_eq_none.mp hKf fk0 hfk0mem)
      | some fkp =>
        have heqp : fkp = fk0 := fk_unique_eq s.foreignKeys hwf collection field fkp fk0
          (List.mem_of_find?_eq_some hKf) hfk0mem (List.find?_some hKf) hkeyfk0
        rw [heqp]
    cases hrel : truthyS existing.related_collection with
    | false =>
      have hs1 : s1 = s := by
        have hfal := updateFkStep_falsy s existing collection field relation hrel
        rw [hfal] at hfk
        injection hfk with hh
        exact hh.symm
      subst hs1
      cases hpm : relation.meta with
      | none =>
        have hms : updateMetaStep s1 existing relation = s1 := by
          unfold updateMetaStep
          rw [hpm]
        refine ⟨existing, existing, h4, ?_, rfl, rfl, rfl⟩
        rw [hms]
        exact h4
      | some p =>
        have hms : updateMetaStep s1 existing relation = insertMetaRow s1
            { rowFromPatch s1.nextId p with
              many_collection := relation.collection,
              many_field := relation.field,
              one_collection := (if truthyS existing.related_collection then existing.related_collection else none) } := by
          unfold updateMetaStep
          rw [hpm, hexmeta]
        obtain ⟨r', hr', hcol', hfld', hrel'⟩ := stitch_insert_case s1.metaRows
          s1.foreignKeys collection field hc hf
          { rowFromPatch s1.nextId p with
            many_collection := relation.collection,
            many_field := relation.field,
            one_collection := (if truthyS existing.related_collection then existing.related_collection else none) } fk0 hMnone hKfind
        refine ⟨existing, r', h4, ?_, ?_, ?_, ?_⟩
        · rw [hms]
          exact hr'
        · rw [hcol', hexcol]
        · rw [hfld', hexfld]
        · rw [hrel', hexrel]
    | true =>
      obtain ⟨x, hxeq⟩ : ∃ x, existing.related_collection = some x := by
        cases hre : existing.related_collection with
        | none =>
          rw [hre] at hrel
          exact nomatch hrel
        | some v => exact ⟨v, rfl⟩
      have hx : x ≠ "" := by
        rw [hxeq] at hrel
        unfold truthyS at hrel
        simpa using hrel
      have hx0 : fk0.foreign_key_table = x := by
        have hsx := hexrel.symm.trans hxeq
        injection hsx
      obtain ⟨hmr1, hnid1, K0, name, refcol, hsub, hKeq⟩ :=
        updateFkStep_shape s existing collection field relation s1 x hxeq hx hfk
      have hall : ∀ fk ∈ s.foreignKeys, fkKeyIs collection field fk = true →
          fk.foreign_key_table = x := by
        intro fk hmemK hkeyfk
        have heqp : fk = fk0 := fk_unique_eq s.foreignKeys hwf collection field fk fk0
          hmemK hfk0mem hkeyfk hkeyfk0
        rw [heqp, hx0]
      have hnewkey : fkKeyIs collection field
          { table := collection, column := field, foreign_key_table := x,
            foreign_key_column := refcol, constraint_name := some name,
            on_delete := onDeleteOf relation } = true := by
        simp [fkKeyIs]
      have hkf := keyfind_aux K0 s.foreignKeys collection field x hsub hall _ hnewkey rfl
      rw [← hKeq] at hkf
      obtain ⟨⟨fk1, hfk1find, hfk1x⟩, hall1⟩ := hkf
      cases hpm : relation.meta with
      | none =>
        have hms : updateMetaStep s1 existing relation = s1 := by
          unfold updateMetaStep
          rw [hpm]
        obtain ⟨r', hr', hcol', hfld', hrel'⟩ := stitch_nometa_case s.metaRows
          s1.foreignKeys collection field fk1 hMnone hfk1find
        refine ⟨existing, r', h4, ?_, ?_, ?_, ?_⟩
        · rw [hms]
          show findRelation (stitchRelations s1.metaRows s1.foreignKeys) collection field =
            some r'
          rw [hmr1]
          exact hr'
        · rw [hcol', hexcol]
        · rw [hfld', hexfld]
        · rw [hrel', hfk1x, hxeq]
      | some p =>
        have hms : updateMetaStep s1 existing relation = insertMetaRow s1
            { rowFromPatch s1.nextId p with
              many_collection := relation.collection,
              many_field := relation.field,
              one_collection := (if truthyS existing.related_collection then existing.related_collection else none) } := by
          unfold updateMetaStep
          rw [hpm, hexmeta]
        obtain ⟨r', hr', hcol', hfld', hrel'⟩ := stitch_insert_case s.metaRows
          s1.foreignKeys collection field hc hf
          { rowFromPatch s1.nextId p with
            many_collection := relation.collection,
            many_field := relation.field,
            one_collection := (if truthyS existing.related_collection then existing.related_collection else none) } fk1 hMnone hfk1find
        refine ⟨existing, r', h4, ?_, ?_, ?_, ?_⟩
        · rw [hms]
          show findRelation (stitchRelations (s1.metaRows ++
            [{ rowFromPatch s1.nextId p with
               many_collection := relation.collection,
               many_field := relation.field,
               one_collection := (if truthyS existing.related_collection then existing.related_collection else none) }]) s1.foreignKeys) collection field =
            some r'
          rw [hmr1]
          exact hr'
        · rw [hcol', hexcol]
        · rw [hfld', hexfld]
        · rw [hrel', hfk1x, hxeq]

/-- A state holding a metadata-only alias relation at `a.f` with no
related collection and no physical key. -/
def aliasState : DbState :=
  { collections := [("a", sampleIntCollection)],
    metaRows := [{ id := 0, many_collection := some "a", many_field := some "f",
                   one_collection := none, one_field := none,
                   one_allowed_collections := none }],
    nextId := 1, foreignKeys := [] }

/-- An update payload whose meta patch writes the `one_collection`
identity column. -/
def oneCollectionPatch : RelationPayload :=
  { meta := some { one_collection := some (some "b") } }

/-- C4 counterexample: updating the alias relation with a meta patch that
writes `one_collection` succeeds and changes the related collection of
the relation at `(a, f)` from null to `b`, so the triple is not
unchanged for every successful call. -/
theorem relations_C4_cex :
    (updateOne none (stitchRelations aliasState.metaRows aliasState.foreignKeys)
      aliasState false (Except.ok ()) "a" "f" oneCollectionPatch).1 = Except.ok () ∧
    (getRelationsForField aliasState "a" "f").map
      (fun r => r.related_collection) = some none ∧
    (getRelationsForField (updateOne none (stitchRelations aliasState.metaRows
      aliasState.foreignKeys) aliasState false (Except.ok ()) "a" "f"
      oneCollectionPatch).2.1 "a" "f").map
      (fun r => r.related_collection) = some (some "b") :=
  ⟨rfl, rfl, rfl⟩

theorem relations_C4_witness :
    ∃ r r', getRelationsForField aliasState "a" "f" = some r ∧
      getRelationsForField (updateOne none (stitchRelations aliasState.metaRows
        aliasState.foreignKeys) aliasState false (Except.ok ()) "a" "f"
        { meta := some { one_field := some (some "rev") } }).2.1 "a" "f" = some r' ∧
      r'.collection = r.collection ∧ r'.field = r.field ∧
      r'.related_collection = r.related_collection :=
  relations_C4 none aliasState false (Except.ok ()) "a" "f"
    { meta := some { one_field := some (some "rev") } }
    (by decide) (by decide) List.Pairwise.nil ⟨rfl, rfl, rfl⟩ rfl

end Directus
